import Mathlib

/-!
Verification of the DAGOBAH table-annotation engine (Orange-OpenSource/Table-Annotation)
against its natural-language specification.

The Python sources under src/annotation (table_annotation.py, annot_scripts/annotation_models.py,
annot_scripts/knowledge_bases.py, annot_scripts/abstract_classes.py) are shallowly embedded below:
Python dicts become insertion-ordered association lists, floats become rationals, and the
class state of Baseline_Model becomes an explicit record threaded through the task functions.
-/

namespace TableAnnot

/-- Python-style association list lookup: first binding of the key wins
(Python dicts have unique keys, so the first binding is the binding). -/
def alGet {K V : Type} [DecidableEq K] (l : List (K × V)) (k : K) : Option V :=
  match l with
  | [] => none
  | (k', v) :: rest => if k' = k then some v else alGet rest k

/-- Python dict assignment d[k] = v: overwrite in place if the key exists,
otherwise append at the end (Python dicts preserve insertion order). -/
def alPut {K V : Type} [DecidableEq K] (l : List (K × V)) (k : K) (v : V) : List (K × V) :=
  match l with
  | [] => [(k, v)]
  | (k', v') :: rest => if k' = k then (k, v) :: rest else (k', v') :: alPut rest k v

/-- Python membership test: k in d. -/
def alHas {K V : Type} [DecidableEq K] (l : List (K × V)) (k : K) : Bool :=
  (alGet l k).isSome

/-- Python d.get(k, dflt). -/
def alGetD {K V : Type} [DecidableEq K] (l : List (K × V)) (k : K) (dflt : V) : V :=
  (alGet l k).getD dflt

/-- Python dict.update(other): bindings of other overwrite, new keys append in order. -/
def alUpdate {K V : Type} [DecidableEq K] (l other : List (K × V)) : List (K × V) :=
  other.foldl (fun acc kv => alPut acc kv.1 kv.2) l

theorem alGet_alPut_self {K V : Type} [DecidableEq K] (l : List (K × V)) (k : K) (v : V) :
    alGet (alPut l k v) k = some v := by
  induction l with
  | nil => simp [alPut, alGet]
  | cons hd tl ih =>
      by_cases h : hd.1 = k
      · simp [alPut, alGet, h]
      · simp [alPut, alGet, h, ih]

theorem alGet_alPut_ne {K V : Type} [DecidableEq K] (l : List (K × V)) (k k' : K) (v : V)
    (h : k ≠ k') : alGet (alPut l k v) k' = alGet l k' := by
  induction l with
  | nil => simp [alPut, alGet, h]
  | cons hd tl ih =>
      by_cases hh : hd.1 = k
      · simp [alPut, alGet, hh, h]
      · simp only [alPut, if_neg hh, alGet]
        by_cases hk : hd.1 = k'
        · simp [hk]
        · simp [hk, ih]

/-! ## Table components (annot_scripts/abstract_classes.py)

Cell, Column, Column_Pair, Candidate_Entity, Relation and Edge are named tuples. -/

structure Cell where
  row_index : Nat
  col_index : Nat
deriving DecidableEq, Repr

structure Column where
  col_index : Nat
deriving DecidableEq, Repr

structure Column_Pair where
  head_col_index : Nat
  tail_col_index : Nat
deriving DecidableEq, Repr

structure Candidate_Entity where
  row_index : Nat
  col_index : Nat
  id : String
deriving DecidableEq, Repr

structure Relation where
  id : String
  semantic_proximity : ℚ
deriving DecidableEq, Repr

structure Edge where
  pid : String
  info : String
deriving DecidableEq, Repr

/-! ## Knowledge-base records (annot_scripts/knowledge_bases.py, data/hashmap)

A stored LMDB value decodes to a dict {labels, aliases, descriptions, pid -> adjacency}.
A forward predicate maps each object to a rank string (entity objects) or to a
literal-type tag; a backward predicate (id starting with "(-)") maps to a set of subjects,
modelled as a list of subjects. -/

inductive Adjacency where
  /-- forward predicate: object id mapped to its rank string or literal-type tag -/
  | forward (objs : List (String × String))
  /-- backward predicate: plain collection of subject ids -/
  | backward (objs : List String)
deriving DecidableEq, Repr

structure EntityRecord where
  labels : List String
  aliases : List String
  descriptions : List String
  props : List (String × Adjacency)
deriving DecidableEq, Repr

/-- The persistent key-value store keyed by entity id (edge_txn in Wikidata_KB). -/
def KBStore := List (String × EntityRecord)

/-- Wikidata_KB.type_properties: properties considered in CTA. -/
def type_properties : List String := ["P31", "P106", "P39", "P105"]

/-- Wikidata_KB.instanceOfPID. -/
def instanceOfPID : String := "P31"

/-- Wikidata_KB.subClassPID. -/
def subClassPID : String := "P279"

/-- Wikidata_KB.transitivePID: Wikidata transitive properties. -/
def transitivePID : List String :=
  ["P131", "P276", "P279", "P361", "P403", "P460", "P527", "P706", "P927", "P1647", "P2094",
   "P3373", "P3403", "P5607", "P5973", "P171"]

/-- Wikidata_KB.is_valid_ID: id longer than 1 char, starts with P or Q, digits after. -/
def is_valid_ID (entity_id : String) : Bool :=
  (entity_id.length > 1) && (entity_id.data.head? = some 'P' || entity_id.data.head? = some 'Q')
    && (entity_id.data.tail.all Char.isDigit)

/-- Wikidata_KB.get_label_of_entity: the source signature takes exactly one argument
(entity_id) besides self.  Returns "" when the entity is absent, the first label when
labels is non-empty and "No English Label" otherwise. -/
def get_label_of_entity (store : KBStore) (entity_id : String) : String :=
  match alGet store entity_id with
  | none => ""
  | some r =>
      match r.labels with
      | [] => "No English Label"
      | l :: _ => l

/-- Wikidata_KB.map_rank: PREFERRED -> 2, NORMAL -> 1, anything else -> 0. -/
def map_rank (rank : String) : Nat :=
  if rank = "PREFERRED" then 2
  else if rank = "NORMAL" then 1
  else 0

/-- Wikidata_KB.get_num_edges: sum of adjacency sizes over all non-label predicates. -/
def get_num_edges (store : KBStore) (entity_id : String) : Nat :=
  match alGet store entity_id with
  | none => 0
  | some r =>
      r.props.foldl
        (fun acc pa =>
          acc + (match pa.2 with
                 | Adjacency.forward objs => objs.length
                 | Adjacency.backward objs => objs.length)) 0

/-- Wikidata_KB.get_supertypes_of_type: the P279 forward adjacency of the type,
empty when the type or the property is absent. -/
def get_supertypes_of_type (store : KBStore) (type_id : String) : List (String × String) :=
  match alGet store type_id with
  | none => []
  | some r =>
      match alGet r.props subClassPID with
      | some (Adjacency.forward objs) => objs
      | _ => []

/-! ## Python call semantics for the C1 bug

table_annotation.py line 115 invokes KB.get_label_of_entity(cea[0]["id"], True) with two
positional arguments, but the method signature in knowledge_bases.py accepts only
entity_id.  The embedding keeps the Python calling convention explicit: a PyVal argument
list is bound against the one-parameter signature, and a surplus argument raises TypeError. -/

inductive PyVal where
  | str (s : String)
  | bool (b : Bool)
deriving DecidableEq, Repr

inductive PyError where
  | typeError
  | indexError
deriving DecidableEq, Repr

/-- Calling Wikidata_KB.get_label_of_entity through the Python calling convention:
the def takes the single parameter entity_id, so any other arity raises TypeError,
and a non-string entity id would fail the .encode("ascii") attribute access (also
a type error). -/
def call_get_label_of_entity (store : KBStore) (args : List PyVal) : Except PyError String :=
  match args with
  | [PyVal.str entity_id] => Except.ok (get_label_of_entity store entity_id)
  | _ => Except.error PyError.typeError

/-- Wikidata_KB.prefixing_entity. -/
def prefixing_entity (entity : String) : String :=
  if entity.data.head? = some 'Q' then "http://www.wikidata.org/entity/" ++ entity
  else if entity.data.head? = some 'P' then "http://www.wikidata.org/prop/direct/" ++ entity
  else entity

/-- One CEA entry held in Baseline_Model.cea_annot: selected candidate id and score. -/
structure CEAEntry where
  id : String
  score : ℚ
deriving DecidableEq, Repr

/-- One rendered CEA output record of table_annotation: {row, column, annotation}. -/
structure CEAOut where
  row : Nat
  column : Nat
  label : String
  uri : String
  score : ℚ
deriving DecidableEq, Repr

/-- The CEA block of table_annotation (lines 115-117): for every (cell, cea) in
cea_annot, build {row, column, annotation: {label, uri, score}} where the label is
obtained by the two-argument call KB.get_label_of_entity(cea[0]["id"], True). -/
def build_cea_output (store : KBStore) (cea_annot : List (Cell × List CEAEntry)) :
    Except PyError (List CEAOut) :=
  match cea_annot with
  | [] => Except.ok []
  | (cell, cea) :: rest =>
      match cea.head? with
      | none => Except.error PyError.indexError
      | some first =>
          match call_get_label_of_entity store [PyVal.str first.id, PyVal.bool true] with
          | Except.error e => Except.error e
          | Except.ok label =>
              match build_cea_output store rest with
              | Except.error e => Except.error e
              | Except.ok tail =>
                  Except.ok ({ row := cell.row_index, column := cell.col_index,
                               label := label, uri := prefixing_entity first.id,
                               score := first.score } :: tail)

/-! ## Hierarchical types (Wikidata_KB.get_types_of_entity)

level_1 is built from the configured type-bearing predicates P31 (instance of),
P106 (occupation), P39 (position held) and P105 (taxon rank / academic degree list slot);
P31 adjacencies go to instanceOf_types and the others to others_types, and level_1 is
others_types when that dict is non-empty, else instanceOf_types.  Each further level is
the union of P279 targets of the previous level. -/

/-- The (instanceOf_types, others_types) pair accumulated over type_properties.
An absent predicate or an empty adjacency is skipped (Python "if a_type:"). -/
def collect_type_props (props : List (String × Adjacency)) :
    List (String × String) × List (String × String) :=
  type_properties.foldl
    (fun acc prop =>
      match alGet props prop with
      | some (Adjacency.forward objs) =>
          if objs = [] then acc
          else if prop = instanceOfPID then (alUpdate acc.1 objs, acc.2)
          else (acc.1, alUpdate acc.2 objs)
      | _ => acc)
    ([], [])

/-- Union of the P279 forward adjacencies over the previous level's types
(the inner loop of get_types_of_entity; an entity absent from the store or without
P279 contributes nothing). -/
def subclass_union (store : KBStore) (inter : List (String × String)) :
    List (String × String) :=
  inter.foldl (fun acc t => alUpdate acc (get_supertypes_of_type store t.1)) []

/-- The chain of levels 2..num_level: each level is subclass_union of the previous. -/
def levels_from (store : KBStore) : Nat → List (String × String) →
    List (List (String × String))
  | 0, _ => []
  | Nat.succ n, inter =>
      let types := subclass_union store inter
      types :: levels_from store n types

/-- Wikidata_KB.get_types_of_entity: returns the list [level_1, ..., level_num_level]. -/
def get_types_of_entity (store : KBStore) (entity_id : String) (num_level : Nat) :
    List (List (String × String)) :=
  if num_level = 0 then []
  else
    let props := match alGet store entity_id with
                 | some r => r.props
                 | none => []
    let io := collect_type_props props
    let level1 := if io.2 = [] then io.1 else io.2
    level1 :: levels_from store (num_level - 1) level1

/-- The level_1 described by the spec sentence of claim C5: the union of the adjacencies
of ALL configured type-bearing predicates present on the entity, instance-of included. -/
def spec_level_1 (store : KBStore) (entity_id : String) : List (String × String) :=
  let props := match alGet store entity_id with
               | some r => r.props
               | none => []
  type_properties.foldl
    (fun acc prop =>
      match alGet props prop with
      | some (Adjacency.forward objs) => alUpdate acc objs
      | _ => acc)
    []

/-- The amended description of level_1: the union of the non-instance-of type-bearing
adjacencies when at least one of them is present and non-empty, else the instance-of
adjacency. -/
def amended_level_1 (store : KBStore) (entity_id : String) : List (String × String) :=
  let props := match alGet store entity_id with
               | some r => r.props
               | none => []
  let io := collect_type_props props
  if io.2 = [] then io.1 else io.2

/-! ## Pipeline driver skeleton (table_annotation.py, Baseline_Model.__init__)

Baseline_Model.__init__ stops right after preprocessing when the preprocessed table
infos are empty, leaving is_model_init_success at False; table_annotation then skips the
whole annotation body and returns the initial output record untouched (the timing fields
of the output are only assigned inside the success branch). -/

structure TableInfos where
  tableDataRevised : List (List String)
  hasHeader : Bool
deriving DecidableEq, Repr

structure AnnotatedBlock where
  tableDataRevised : List (List String)
  cea : List CEAOut
deriving DecidableEq, Repr

/-- The annotation_output record of table_annotation; the annotated and preprocessed
dicts start empty (modelled as none). -/
structure AnnotationOutput where
  tableDataRaw : List (List String)
  annotated : Option AnnotatedBlock
  preprocessed : Option TableInfos
  preprocessingTime : ℚ
  lookupTime : ℚ
  entityScoringTime : ℚ
  subgraphConstructionTime : ℚ
  ctaTaskTime : ℚ
  ceaTaskTime : ℚ
  cpaTaskTime : ℚ
  avgLookupCandidate : ℚ
deriving DecidableEq, Repr

/-- The initial annotation_output value (table_annotation.py lines 32-44). -/
def annotation_output_init (raw_table : List (List String)) : AnnotationOutput :=
  { tableDataRaw := raw_table, annotated := none, preprocessed := none,
    preprocessingTime := 0, lookupTime := 0, entityScoringTime := 0,
    subgraphConstructionTime := 0, ctaTaskTime := 0, ceaTaskTime := 0,
    cpaTaskTime := 0, avgLookupCandidate := 0 }

/-- Baseline_Model.__init__ success flag as a function of the preprocessing result
(none models the empty "preprocessed" dict) and of the subsequent lookup outcome,
which is only attempted when preprocessing succeeded. -/
def is_model_init_success (table_infos : Option TableInfos)
    (lookup_ok : TableInfos → Bool) : Bool :=
  match table_infos with
  | none => false
  | some ti => lookup_ok ti

/-- table_annotation: the annotation body runs only under is_model_init_success; the
body itself (passes 0-4 and output rendering) is abstracted as run_pipeline. -/
def table_annotation (raw_table : List (List String)) (table_infos : Option TableInfos)
    (lookup_ok : TableInfos → Bool) (run_pipeline : TableInfos → AnnotationOutput) :
    AnnotationOutput :=
  match table_infos with
  | some ti => if lookup_ok ti then run_pipeline ti else annotation_output_init raw_table
  | none => annotation_output_init raw_table

/-! ## Claims C1, C9, C5 -/

/-- Claim C1 (code bug): the spec promises that table_annotation returns normally with CEA
entries {row, column, annotation: {label, uri, score}}, label being the KB label of the
chosen entity.  The code cannot do so: table_annotation.py line 115 passes the two
positional arguments (cea[0]["id"], True) to Wikidata_KB.get_label_of_entity, whose
signature accepts only entity_id (its docstring still documents the removed only_one
parameter), so whenever at least one cell carries a CEA annotation the rendering of the
"annotated" CEA list raises TypeError instead of returning.  The theorem evaluates the
embedded CEA rendering: with any non-empty cea_annot it yields the TypeError, while the
one-argument call of the same method succeeds. -/
theorem claim_C1_cea_rendering_raises (store : KBStore) (cell : Cell) (e : CEAEntry)
    (es : List CEAEntry) (rest : List (Cell × List CEAEntry)) (any_id : String) :
    build_cea_output store ((cell, e :: es) :: rest) = Except.error PyError.typeError ∧
    call_get_label_of_entity store [PyVal.str e.id, PyVal.bool true] =
      Except.error PyError.typeError ∧
    call_get_label_of_entity store [PyVal.str any_id] =
      Except.ok (get_label_of_entity store any_id) := by
  refine ⟨?_, rfl, rfl⟩
  simp [build_cea_output, call_get_label_of_entity]

/-- Claim C9 (confirmed): when table preprocessing returns an empty result, the engine's
init-success flag stays false and table_annotation returns the initial output record:
the raw-table echo, an empty annotated object, and the untouched default timing fields. -/
theorem claim_C9_preprocessing_failure (raw_table : List (List String))
    (lookup_ok : TableInfos → Bool) (run_pipeline : TableInfos → AnnotationOutput) :
    is_model_init_success none lookup_ok = false ∧
    table_annotation raw_table none lookup_ok run_pipeline =
      annotation_output_init raw_table ∧
    (annotation_output_init raw_table).tableDataRaw = raw_table ∧
    (annotation_output_init raw_table).annotated = none ∧
    (annotation_output_init raw_table).preprocessingTime = 0 ∧
    (annotation_output_init raw_table).lookupTime = 0 ∧
    (annotation_output_init raw_table).entityScoringTime = 0 ∧
    (annotation_output_init raw_table).subgraphConstructionTime = 0 ∧
    (annotation_output_init raw_table).ctaTaskTime = 0 ∧
    (annotation_output_init raw_table).ceaTaskTime = 0 ∧
    (annotation_output_init raw_table).cpaTaskTime = 0 ∧
    (annotation_output_init raw_table).avgLookupCandidate = 0 := by
  refine ⟨rfl, rfl, rfl, rfl, rfl, rfl, rfl, rfl, rfl, rfl, rfl, rfl⟩

/-- A two-predicate entity for the C5 counterexample: Q1 is instance of (P31) QA and has
occupation (P106) QB. -/
def c5_store : KBStore :=
  [("Q1", { labels := [], aliases := [], descriptions := [],
            props := [("P31", Adjacency.forward [("QA", "NORMAL")]),
                      ("P106", Adjacency.forward [("QB", "NORMAL")])] })]

/-- Claim C5 counterexample: the claim says level_1 is the union of the adjacencies of
all configured type-bearing predicates present on the entity; on an entity carrying both
an instance-of type QA and an occupation QB the code returns only {QB}, dropping the
instance-of adjacency, while the spec-side union contains both. -/
theorem claim_C5_counterexample :
    get_types_of_entity c5_store "Q1" 1 = [[("QB", "NORMAL")]] ∧
    spec_level_1 c5_store "Q1" = [("QA", "NORMAL"), ("QB", "NORMAL")] ∧
    get_types_of_entity c5_store "Q1" 1 ≠ [spec_level_1 c5_store "Q1"] := by
  refine ⟨rfl, rfl, ?_⟩
  decide

/-- Claim C5 as amended: for every entity_id the hierarchical lookup returns, as level_1,
the union of the non-instance-of type-bearing adjacencies when at least one is present
and non-empty, and the instance-of adjacency otherwise; every higher level is the union
of subclass-of targets of the previous level, so level i (0-based) is the i-fold
subclass-of union of level_1. -/
theorem claim_C5_hierarchical_types (store : KBStore) (entity_id : String)
    (num_level : Nat) :
    get_types_of_entity store entity_id num_level =
      (List.range num_level).map
        (fun i => (fun l => subclass_union store l)^[i] (amended_level_1 store entity_id)) := by
  have aux : ∀ (n : Nat) (inter : List (String × String)),
      levels_from store n inter =
        (List.range n).map (fun i => (fun l => subclass_union store l)^[i + 1] inter) := by
    intro n
    induction n with
    | zero => intro inter; simp [levels_from]
    | succ m ih =>
        intro inter
        rw [levels_from, ih (subclass_union store inter), List.range_succ_eq_map,
            List.map_cons, List.map_map]
        simp only [List.cons_eq_cons]
        constructor
        · simp
        · apply List.map_congr_left
          intro i _
          simp [Function.iterate_succ_apply]
  cases num_level with
  | zero => simp [get_types_of_entity]
  | succ m =>
      have h1 : get_types_of_entity store entity_id (m + 1) =
          amended_level_1 store entity_id ::
            levels_from store m (amended_level_1 store entity_id) := rfl
      rw [h1, aux m (amended_level_1 store entity_id), List.range_succ_eq_map,
          List.map_cons, List.map_map]
      simp only [List.cons_eq_cons]
      constructor
      · simp
      · apply List.map_congr_left
        intro i _
        simp [Function.iterate_succ_apply]

/-! ## Multi-hop semantic context (Baseline_Model._context_scoring, lines 489-529)

When head and tail candidates are not directly connected and multiHop_context is on, the
code intersects the two entity subgraphs and, for every shared node of positive
popularity, emits one relation per predicate pair.  The popularity value
1/(2 + log10(2 + num_edges)) is transcendental; the embedding takes the positive branch
as a parameter pop so that every proximity stays a rational, and keeps the source's
guard popularity = 0 for nodes without edges.  Python iterates the intersection as a
set (arbitrary order); the embedding iterates shared nodes in G_head order, which does
not affect the max/min values the claim is about. -/

/-- The node_popularity computed in the loop: 0 when the node has no edge, else the
value of 1/(2 + log10(2 + num_edges)), supplied by pop. -/
def node_popularity (pop : Nat → ℚ) (num_edges : Nat) : ℚ :=
  if num_edges = 0 then 0 else pop num_edges

/-- Direction reversal of rel_tail: strip the "(-)" marker when present
(Python str.replace removes every occurrence), else prepend it. -/
def reverse_rel (rel_tail : String) : String :=
  if rel_tail.startsWith "(-)" then rel_tail.replace "(-)" "" else "(-)" ++ rel_tail

/-- The relation emitted for one (prop_head, prop_tail) pair at a shared node of
popularity w, exactly as in the source: equal directed predicates that are transitive
collapse to the single predicate with proximity 1; equal non-transitive predicates give
the two-predicate path with proximity w; unequal predicates give the path with
proximity w, divided by 1.75 when exactly one of the two carries the "(-)" marker. -/
def emit_relation (w : ℚ) (rel_head rel_tail0 : String) : String × ℚ :=
  let rel_tail := reverse_rel rel_tail0
  if rel_head = rel_tail then
    if (rel_head.replace "(-)" "") ∈ transitivePID then (rel_head, 1)
    else (rel_head ++ "::" ++ rel_tail, w)
  else
    (rel_head ++ "::" ++ rel_tail,
      if (rel_head.startsWith "(-)" && !rel_tail.startsWith "(-)")
          || (!rel_head.startsWith "(-)" && rel_tail.startsWith "(-)") then w / 1.75
      else w)

/-- The claim's reading of the same emission rule: transitive collapse first, otherwise
the path with the mixed-direction penalty. -/
def claim_emit (w : ℚ) (p_head p_tail : String) : String × ℚ :=
  let r := reverse_rel p_tail
  if p_head = r ∧ (p_head.replace "(-)" "") ∈ transitivePID then (p_head, 1)
  else
    (p_head ++ "::" ++ r,
      if (p_head.startsWith "(-)") ≠ (r.startsWith "(-)") then w / 1.75 else w)

/-- One accumulation step of the loop: best = max(best, sp) and
semantic_proximities[id] = min(semantic_proximities.get(id, sp), sp). -/
def accumulate_emit (acc : ℚ × List (String × ℚ)) (er : String × ℚ) :
    ℚ × List (String × ℚ) :=
  (max acc.1 er.2, alPut acc.2 er.1 (min (alGetD acc.2 er.1 er.2) er.2))

/-- All relations emitted at one shared node (the two nested predicate loops), empty
when the node's popularity is not positive. -/
def emitted_at_node (pop : Nat → ℚ) (store : KBStore) (G_tail : List (String × List Edge))
    (node : String × List Edge) : List (String × ℚ) :=
  let w := node_popularity pop (get_num_edges store node.1)
  if 0 < w then
    node.2.flatMap
      (fun prop_head =>
        (alGetD G_tail node.1 []).map
          (fun prop_tail => emit_relation w prop_head.pid prop_tail.pid))
  else []

/-- The flat list of all emitted relations over the subgraph intersection. -/
def emitted_relations (pop : Nat → ℚ) (store : KBStore)
    (G_head G_tail : List (String × List Edge)) : List (String × ℚ) :=
  (G_head.filter (fun n => alHas G_tail n.1)).flatMap (emitted_at_node pop store G_tail)

/-- The multi-hop scan itself: browse the intersection, and for every shared node of
positive popularity fold every emitted relation into (best_semantic_proximity,
semantic_proximities), starting from (0.0, empty dict). -/
def multi_hop_scan (pop : Nat → ℚ) (store : KBStore)
    (G_head G_tail : List (String × List Edge)) : ℚ × List (String × ℚ) :=
  (G_head.filter (fun n => alHas G_tail n.1)).foldl
    (fun acc node => (emitted_at_node pop store G_tail node).foldl accumulate_emit acc)
    (0, [])

/-- Python min over an optional running value. -/
def omin (a : Option ℚ) (x : ℚ) : Option ℚ :=
  match a with
  | none => some x
  | some m => some (min m x)

/-- Minimum of a rational list as an option (none on the empty list). -/
def minD (l : List ℚ) : Option ℚ :=
  l.foldl omin none

theorem multi_hop_scan_eq_fold (pop : Nat → ℚ) (store : KBStore)
    (G_head G_tail : List (String × List Edge)) :
    multi_hop_scan pop store G_head G_tail =
      (emitted_relations pop store G_head G_tail).foldl accumulate_emit (0, []) := by
  unfold multi_hop_scan emitted_relations
  generalize (G_head.filter (fun n => alHas G_tail n.1)) = ns
  suffices h : ∀ (ns : List (String × List Edge)) (acc : ℚ × List (String × ℚ)),
      ns.foldl
        (fun acc node => (emitted_at_node pop store G_tail node).foldl accumulate_emit acc)
        acc = (ns.flatMap (emitted_at_node pop store G_tail)).foldl accumulate_emit acc by
    exact h ns (0, [])
  intro ns
  induction ns with
  | nil => intro acc; simp
  | cons hd tl ih =>
      intro acc
      simp only [List.foldl_cons, List.flatMap_cons, List.foldl_append]
      exact ih _

theorem emit_relation_eq_claim (w : ℚ) (p q : String) :
    emit_relation w p q = claim_emit w p q := by
  unfold emit_relation claim_emit
  by_cases h1 : p = reverse_rel q
  · by_cases h2 : (p.replace "(-)" "") ∈ transitivePID
    · simp [h1, h2]
    · subst h1
      simp [h2]
  · cases hp : p.startsWith "(-)" <;> cases hq : (reverse_rel q).startsWith "(-)" <;>
      simp [h1, hp, hq]

theorem foldl_accumulate_best (l : List (String × ℚ)) (acc : ℚ × List (String × ℚ)) :
    (l.foldl accumulate_emit acc).1 = (l.map Prod.snd).foldl max acc.1 := by
  induction l generalizing acc with
  | nil => rfl
  | cons hd tl ih =>
      simp only [List.foldl_cons, List.map_cons]
      rw [ih]
      rfl

theorem foldl_accumulate_min (l : List (String × ℚ)) (acc : ℚ × List (String × ℚ))
    (r : String) :
    alGet (l.foldl accumulate_emit acc).2 r =
      ((l.filter (fun er => er.1 = r)).map Prod.snd).foldl omin (alGet acc.2 r) := by
  induction l generalizing acc with
  | nil => rfl
  | cons hd tl ih =>
      simp only [List.foldl_cons, List.filter_cons]
      by_cases h : hd.1 = r
      · rw [ih]
        subst h
        have hput : alGet (accumulate_emit acc hd).2 hd.1 = omin (alGet acc.2 hd.1) hd.2 := by
          show alGet (alPut acc.2 hd.1 (min (alGetD acc.2 hd.1 hd.2) hd.2)) hd.1 = _
          rw [alGet_alPut_self]
          cases hacc : alGet acc.2 hd.1 <;> simp [omin, alGetD, hacc]
        rw [hput]
        simp
      · rw [ih]
        have hput : alGet (accumulate_emit acc hd).2 r = alGet acc.2 r :=
          alGet_alPut_ne _ _ _ _ h
        rw [hput]
        simp [h]

/-- Claim C2 (confirmed): in the multi-hop scan over shared neighbors of positive
popularity, each predicate pair emits per the claimed rule (transitive equal pair
collapses to the single predicate at proximity 1; otherwise the path
p_head::reversed(p_tail) at proximity w, with the 1/1.75 penalty exactly on mixed
directions), best_semantic_proximity is the maximum of all emitted proximities and
each relation's recorded proximity is the minimum observed for that relation. -/
theorem claim_C2_multi_hop_scoring (pop : Nat → ℚ) (store : KBStore)
    (G_head G_tail : List (String × List Edge)) (w : ℚ) (p q r : String) :
    emit_relation w p q = claim_emit w p q ∧
    (multi_hop_scan pop store G_head G_tail).1 =
      ((emitted_relations pop store G_head G_tail).map Prod.snd).foldl max 0 ∧
    alGet (multi_hop_scan pop store G_head G_tail).2 r =
      minD (((emitted_relations pop store G_head G_tail).filter
              (fun er => er.1 = r)).map Prod.snd) := by
  refine ⟨emit_relation_eq_claim w p q, ?_, ?_⟩
  · rw [multi_hop_scan_eq_fold, foldl_accumulate_best]
  · rw [multi_hop_scan_eq_fold, foldl_accumulate_min]
    rfl

/-! ## Stable descending sort

Python's sorted(key, reverse=True) is a stable sort putting larger keys first.  Any two
stable sorts w.r.t. the same total preorder agree, so a stable insertion sort is a
faithful embedding: each element is inserted behind every earlier element whose key is
greater than or equal to its own. -/

/-- Insert x into a descending-sorted list, behind every element y with key x ≤ key y
(le x y means the key of x is at most the key of y). -/
def insertDesc {α : Type} (le : α → α → Bool) (x : α) : List α → List α
  | [] => [x]
  | y :: ys => if le x y then y :: insertDesc le x ys else x :: y :: ys

/-- Stable descending sort: fold the input into sorted order. -/
def sortDesc {α : Type} (le : α → α → Bool) (l : List α) : List α :=
  l.foldl (fun acc x => insertDesc le x acc) []

theorem mem_insertDesc {α : Type} (le : α → α → Bool) (x a : α) (l : List α) :
    a ∈ insertDesc le x l ↔ a = x ∨ a ∈ l := by
  induction l with
  | nil => simp [insertDesc]
  | cons y ys ih =>
      by_cases h : le x y
      · simp only [insertDesc, if_pos h, List.mem_cons, ih]
        tauto
      · simp [insertDesc, h]

theorem insertDesc_perm {α : Type} (le : α → α → Bool) (x : α) (l : List α) :
    (insertDesc le x l).Perm (x :: l) := by
  induction l with
  | nil => simp [insertDesc]
  | cons y ys ih =>
      by_cases h : le x y
      · simp only [insertDesc, if_pos h]
        exact (List.Perm.cons y ih).trans (List.Perm.swap x y ys)
      · simp [insertDesc, h]

theorem sortDesc_perm {α : Type} (le : α → α → Bool) (l : List α) :
    (sortDesc le l).Perm l := by
  suffices h : ∀ (l acc : List α),
      (l.foldl (fun acc x => insertDesc le x acc) acc).Perm (acc ++ l) by
    simpa using h l []
  intro l
  induction l with
  | nil => intro acc; simp
  | cons x xs ih =>
      intro acc
      simp only [List.foldl_cons]
      have h1 := ih (insertDesc le x acc)
      have h2 : (insertDesc le x acc ++ xs).Perm ((x :: acc) ++ xs) :=
        (insertDesc_perm le x acc).append_right xs
      have h3 : ((x :: acc) ++ xs).Perm (acc ++ x :: xs) := by
        simp only [List.cons_append]
        exact (List.perm_middle).symm
      exact h1.trans (h2.trans h3)

/-- Descending order between consecutive elements: b's key is at most a's. -/
def DescOrd {α : Type} (le : α → α → Bool) (a b : α) : Prop := le b a = true

theorem insertDesc_pairwise {α : Type} (le : α → α → Bool)
    (htot : ∀ a b, le a b || le b a) (htr : ∀ a b c, le a b → le b c → le a c)
    (x : α) (l : List α) (h : l.Pairwise (DescOrd le)) :
    (insertDesc le x l).Pairwise (DescOrd le) := by
  induction l with
  | nil => simp [insertDesc, List.pairwise_singleton]
  | cons y ys ih =>
      rcases List.pairwise_cons.mp h with ⟨hy, hys⟩
      by_cases hxy : le x y
      · simp only [insertDesc, if_pos hxy]
        refine List.pairwise_cons.mpr ⟨?_, ih hys⟩
        intro a ha
        rcases (mem_insertDesc le x a ys).mp ha with rfl | ha'
        · exact hxy
        · exact hy a ha'
      · simp only [insertDesc, if_neg hxy]
        have hyx : le y x := by
          have := htot x y
          cases hx : le x y with
          | true => exact absurd hx hxy
          | false => simpa [hx] using this
        refine List.pairwise_cons.mpr ⟨?_, h⟩
        intro a ha
        rcases List.mem_cons.mp ha with rfl | ha'
        · exact hyx
        · exact htr a y x (hy a ha') hyx

theorem sortDesc_pairwise {α : Type} (le : α → α → Bool)
    (htot : ∀ a b, le a b || le b a) (htr : ∀ a b c, le a b → le b c → le a c)
    (l : List α) : (sortDesc le l).Pairwise (DescOrd le) := by
  suffices h : ∀ (l acc : List α), acc.Pairwise (DescOrd le) →
      (l.foldl (fun acc x => insertDesc le x acc) acc).Pairwise (DescOrd le) by
    exact h l [] List.Pairwise.nil
  intro l
  induction l with
  | nil => intro acc hacc; simpa using hacc
  | cons x xs ih =>
      intro acc hacc
      simp only [List.foldl_cons]
      exact ih (insertDesc le x acc) (insertDesc_pairwise le htot htr x acc hacc)

theorem pairwise_head_max {α : Type} (le : α → α → Bool) (h : α) (t : List α)
    (hp : (h :: t).Pairwise (DescOrd le)) : ∀ a ∈ t, le a h := by
  intro a ha
  exact (List.pairwise_cons.mp hp).1 a ha

/-! ## Annotation task records (annotation_models.py) -/

structure CTAEntry where
  id : String
  score : ℚ
  coverage : ℚ
deriving DecidableEq, Repr

structure CPAEntry where
  id : String
  score : ℚ
  semantic_proximity : ℚ
  coverage : ℚ
deriving DecidableEq, Repr

/-- One per-column context record of entity_context_scores: weight, score and the list
of relation ids backing the score. -/
structure ContextRec where
  weight : ℚ
  score : ℚ
  context : List String
deriving DecidableEq, Repr

/-- One entry of potential_candidates: a CPA carried by a contextless candidate. -/
structure PotCand where
  cpa_coeff : ℚ
  cpa_score : ℚ
  cpa_id : String
deriving DecidableEq, Repr

/-- Per-row per-type record of cta_task (types_in_current_row values). -/
structure TypeScore where
  score : ℚ
  rank : Nat
deriving DecidableEq, Repr

/-- Cross-row per-type aggregation of cta_task (candidate_types values). -/
structure CtaAgg where
  count : Nat
  total_scores : ℚ
  total_ranks : Nat
deriving DecidableEq, Repr

/-- Per-row per-relation record of cpa_task (relation_in_current_row values). -/
structure RowRel where
  semantic_proximity : ℚ
  score : ℚ
deriving DecidableEq, Repr

/-- Cross-row per-relation aggregation of cpa_task (cpa_candidates values). -/
structure CpaAgg where
  count : Nat
  total_scores : ℚ
  semantic_proximity : ℚ
deriving DecidableEq, Repr

/-- The three-level hierarchical type record cached in cached_cta_candidates. -/
structure HierTypes where
  level_1 : List (String × String)
  level_2 : List (String × String)
  level_3 : List (String × String)
deriving DecidableEq, Repr

/-- Wikidata_KB.get_subgraph_of_entity: the stored record with labels, aliases and
descriptions stripped. -/
def get_subgraph_of_entity (store : KBStore) (entity_id : String) :
    List (String × Adjacency) :=
  match alGet store entity_id with
  | some r => r.props
  | none => []

/-- hierarchical types of a candidate as cta_task requests them (num_level = 3). -/
def hier_types_of (store : KBStore) (entity_id : String) : HierTypes :=
  match get_types_of_entity store entity_id 3 with
  | [l1, l2, l3] => ⟨l1, l2, l3⟩
  | _ => ⟨[], [], []⟩

/-- The one-hop type neighborhood cached in self.type_graph (cea_task lines 954-965):
the subgraph of the CTA type without its (-)P31 adjacency, keeping backward objects and
rank-tagged forward objects. -/
def type_graph_of (store : KBStore) (cta_type : String) : List String :=
  ((get_subgraph_of_entity store cta_type).filter (fun pa => pa.1 ≠ "(-)P31")).flatMap
    (fun pa =>
      match pa.2 with
      | Adjacency.backward objs => objs
      | Adjacency.forward objs =>
          (objs.filter
            (fun ov => ov.2 == "NORMAL" || ov.2 == "PREFERRED" || ov.2 == "DEPRECATED")).map
            Prod.fst)

/-- is_neighbor_of_entity of cea_task: some query id lies in the target graph. -/
def is_neighbor_of_entity (target_graph : List String) (query_entity_ids : List String) :
    Bool :=
  query_entity_ids.any (fun q => target_graph.contains q)

/-- np.mean of a rational list (the empty case, nan in numpy, is modelled as 0 and is
excluded by the theorems' hypotheses). -/
def mean (l : List ℚ) : ℚ := l.sum / (l.length : ℚ)

/-- Python max over a non-empty list (the empty case raises in Python; modelled as 0
and excluded by the theorems' hypotheses). -/
def pyMax (l : List ℚ) : ℚ :=
  match l with
  | [] => 0
  | h :: t => t.foldl max h

/-- Python s[0] as a one-character string (s.take 1; an empty s raises in Python). -/
def py_first (s : String) : String := s.take 1

/-- Python substring test sub in s. -/
def str_has (s sub : String) : Bool := (s.splitOn sub).length ≠ 1

/-- Python self.table[row][col]. -/
def py_cell (table : List (List String)) (row col : Nat) : String :=
  (table.getD row []).getD col ""

/-! ## cea_task (annotation_models.py lines 904-1031)

The task is split into a pure core over the fields it reads, so that its output
visibly depends on nothing else.  cached_cta_candidates is indexed directly in the
source (a missing candidate would raise KeyError); the embedding reads it with an
empty-record default, and the theorems about cea_task assume the cache holds every
candidate of the cell, which is what the pipeline establishes before disambiguation. -/

structure CtaDisambAcc where
  applied : Bool
  weights : List ℚ
  ds : List (String × ℚ)
  tg : List (String × List String)
deriving Repr

/-- One candidate's cta_disambiguation_scores update for one CTA type. -/
def cta_disamb_step_cand (cached_cta : List (String × HierTypes)) (tgval : List String)
    (cta_type : String) (cta_score : ℚ) (d : List (String × ℚ)) (cea : CEAEntry) :
    List (String × ℚ) :=
  let d := if alHas d cea.id then d else alPut d cea.id 0
  let hier := alGetD cached_cta cea.id ⟨[], [], []⟩
  if alHas hier.level_1 cta_type then
    alPut d cea.id (max (alGetD d cea.id 0) (1 * cta_score))
  else if alHas hier.level_2 cta_type
      || is_neighbor_of_entity tgval (hier.level_1.map Prod.fst) then
    alPut d cea.id (max (alGetD d cea.id 0) (0.7 * cta_score))
  else if alHas hier.level_3 cta_type
      || is_neighbor_of_entity tgval (hier.level_2.map Prod.fst) then
    alPut d cea.id (max (alGetD d cea.id 0) (0.2 * cta_score))
  else d

/-- The CTA disambiguation loop of cea_task: browse cta_annot, mark applied on the
matching column, fill the type_graph cache, collect coverages as weights and fold the
per-candidate disambiguation scores. -/
def cta_disamb_fold (store : KBStore) (cached_cta : List (String × HierTypes))
    (cea_candidates : List CEAEntry) (cta_annot : List (Column × List CTAEntry))
    (col : Nat) (tg0 : List (String × List String)) : CtaDisambAcc :=
  cta_annot.foldl
    (fun acc ccta =>
      if ccta.1.col_index = col then
        let acc1 : CtaDisambAcc := { acc with applied := true }
        ccta.2.foldl
          (fun a2 a_cta =>
            let tg2 := if alHas a2.tg a_cta.id then a2.tg
                       else alPut a2.tg a_cta.id (type_graph_of store a_cta.id)
            let tgval := alGetD tg2 a_cta.id []
            let a3 : CtaDisambAcc :=
              { a2 with tg := tg2, weights := a2.weights ++ [a_cta.coverage] }
            { a3 with
              ds := cea_candidates.foldl
                      (cta_disamb_step_cand cached_cta tgval a_cta.id a_cta.score) a3.ds })
          acc1
      else acc)
    ⟨false, [], [], tg0⟩

/-- Boolean comparison through a key into a linear order, the shape of every
Python sorted(key=...) in the tasks. -/
def keyLe {α K : Type} [LinearOrder K] (key : α → K) (a b : α) : Bool :=
  decide (key a ≤ key b)

/-- The sort key of cea_task: (score, count of CPA memberships), compared
lexicographically. -/
def cea_key (potential : List (Candidate_Entity × List PotCand)) (row col : Nat)
    (c : CEAEntry) : ℚ ×ₗ ℕ :=
  toLex (c.score, (alGetD potential ⟨row, col, c.id⟩ []).length)

/-- le a b says a's cea_task key is at most b's. -/
def cea_key_le (potential : List (Candidate_Entity × List PotCand)) (row col : Nat)
    (a b : CEAEntry) : Bool :=
  keyLe (cea_key potential row col) a b

/-- The cta_coeff and the (possibly contextless-boosted) candidate list. -/
def cea_coeff_cands (soft_scoring : Bool) (contextless : List (Cell × ℚ))
    (potential : List (Candidate_Entity × List PotCand)) (row col : Nat)
    (applied : Bool) (weights : List ℚ) (cea_candidates : List CEAEntry) :
    ℚ × List CEAEntry :=
  if applied then
    if soft_scoring then
      if contextless ≠ [] ∧ alGetD contextless ⟨row, col⟩ 0.1 = 0.1 then
        (mean weights,
         cea_candidates.map
           (fun c =>
             match alGet potential (⟨row, col, c.id⟩ : Candidate_Entity) with
             | some pl =>
                 { id := c.id, score := min 1 (c.score * (1 + pyMax (pl.map PotCand.cpa_coeff))) }
             | none => c))
      else (mean weights / 2, cea_candidates)
    else (0.25, cea_candidates)
  else (0, cea_candidates)

/-- cea_task's pure core: returns the annotation for the cell (none when the cell has
no lookup or no scored candidate) and the updated type_graph cache. -/
def cea_core (store : KBStore) (lookup : List (Cell × List String))
    (entity_scores : List (Candidate_Entity × ℚ)) (cta_annot : List (Column × List CTAEntry))
    (soft_scoring : Bool) (contextless : List (Cell × ℚ))
    (potential : List (Candidate_Entity × List PotCand))
    (cached_cta : List (String × HierTypes)) (tg : List (String × List String))
    (col row : Nat) (only_one : Bool) :
    Option (List CEAEntry) × List (String × List String) :=
  match alGet lookup (⟨row, col⟩ : Cell) with
  | none => (none, tg)
  | some cand_ids =>
      let cea_candidates := cand_ids.filterMap
        (fun id => (alGet entity_scores ⟨row, col, id⟩).map
                     (fun sc => ({ id := id, score := sc } : CEAEntry)))
      if cea_candidates.isEmpty then (none, tg)
      else
        let acc := cta_disamb_fold store cached_cta cea_candidates cta_annot col tg
        let cc := cea_coeff_cands soft_scoring contextless potential row col
                    acc.applied acc.weights cea_candidates
        let combined := cc.2.map
          (fun c =>
            if acc.applied then
              ({ id := c.id,
                 score := (c.score + cc.1 * alGetD acc.ds c.id 0) / (1 + cc.1) } : CEAEntry)
            else { id := c.id, score := c.score / 1 })
        let sorted := sortDesc (cea_key_le potential row col) combined
        let selected :=
          if only_one then
            match sorted with
            | [] => []
            | h :: _ => sorted.filter (fun c => decide (c.score = h.score))
          else sorted
        (some selected, acc.tg)

/-! ## cta_task (annotation_models.py lines 800-902)

The per-row types_in_current_row dict is rebuilt for each row, but the loop variable t1
of the level-1 loop survives across candidates and rows (Python function scope); the
level-2 in-dict branch reads types_in_current_row[t1] through that stale variable, so
the embedding threads the last-assigned t1 explicitly (none before the first
assignment, in which case the source would raise; the read defaults to rank 0 here). -/

/-- The level-1 loop: weight 1.0, updates the last-assigned t1. -/
def cta_level1_fold (cs : ℚ) (level : List (String × String))
    (rt0 : List (String × TypeScore)) (last0 : Option String) :
    List (String × TypeScore) × Option String :=
  level.foldl
    (fun acc tr =>
      let rt := acc.1
      let newrt :=
        match alGet rt tr.1 with
        | some old =>
            alPut rt tr.1 ⟨max old.score (1 * cs), max old.rank (map_rank (py_first tr.2))⟩
        | none => alPut rt tr.1 ⟨1 * cs, map_rank (py_first tr.2)⟩
      (newrt, some tr.1))
    (rt0, last0)

/-- The level-2 loop: weight 0.7; the in-dict branch reads the rank of the stale t1
entry instead of its own (source line 844). -/
def cta_level2_fold (cs : ℚ) (level : List (String × String))
    (rt0 : List (String × TypeScore)) (lastT1 : Option String) :
    List (String × TypeScore) :=
  level.foldl
    (fun rt tr =>
      match alGet rt tr.1 with
      | some old =>
          let t1rank : Nat :=
            match lastT1 with
            | some t1 => (alGetD rt t1 ⟨0, 0⟩).rank
            | none => 0
          alPut rt tr.1 ⟨max old.score (0.7 * cs), max t1rank (map_rank (py_first tr.2))⟩
      | none => alPut rt tr.1 ⟨0.7 * cs, map_rank (py_first tr.2)⟩)
    rt0

/-- The level-3 loop: weight 0.2, reads its own entry's rank. -/
def cta_level3_fold (cs : ℚ) (level : List (String × String))
    (rt0 : List (String × TypeScore)) : List (String × TypeScore) :=
  level.foldl
    (fun rt tr =>
      match alGet rt tr.1 with
      | some old =>
          alPut rt tr.1 ⟨max old.score (0.2 * cs), max old.rank (map_rank (py_first tr.2))⟩
      | none => alPut rt tr.1 ⟨0.2 * cs, map_rank (py_first tr.2)⟩)
    rt0

/-- One row's candidate loop: hierarchical types are taken from (and filled into) the
cached_cta_candidates cache, and the three level loops update types_in_current_row. -/
def cta_row_fold (store : KBStore) (ceas : List CEAEntry)
    (cached0 : List (String × HierTypes)) (last0 : Option String) :
    List (String × HierTypes) × List (String × TypeScore) × Option String :=
  ceas.foldl
    (fun acc cea =>
      let cached := acc.1
      let rt := acc.2.1
      let last := acc.2.2
      let ch :=
        match alGet cached cea.id with
        | some h => (cached, h)
        | none =>
            let h := hier_types_of store cea.id
            (alPut cached cea.id h, h)
      let r1 := cta_level1_fold cea.score ch.2.level_1 rt last
      let r2 := cta_level2_fold cea.score ch.2.level_2 r1.1 r1.2
      let r3 := cta_level3_fold cea.score ch.2.level_3 r2
      (ch.1, r3, r1.2))
    (cached0, [], last0)

/-- The row loop of cta_task: aggregate each row's types into candidate_types
(count once per row, sum of scores, sum of ranks). -/
def cta_candidate_types (store : KBStore) (first num : Nat)
    (cea_annot : List (Cell × List CEAEntry)) (cached0 : List (String × HierTypes))
    (col : Nat) :
    List (String × HierTypes) × List (String × CtaAgg) :=
  let res := (List.range' first (num - first)).foldl
    (fun acc row =>
      match alGet cea_annot (⟨row, col⟩ : Cell) with
      | none => acc
      | some ceas =>
          let r := cta_row_fold store ceas acc.1 acc.2.2
          let ct2 := r.2.1.foldl
            (fun ct ttsc =>
              match alGet ct ttsc.1 with
              | some a =>
                  alPut ct ttsc.1
                    ⟨a.count + 1, a.total_scores + ttsc.2.score, a.total_ranks + ttsc.2.rank⟩
              | none => alPut ct ttsc.1 ⟨1, ttsc.2.score, ttsc.2.rank⟩)
            acc.2.1
          (r.1, ct2, r.2.2))
    (cached0, ([] : List (String × CtaAgg)), (none : Option String))
  (res.1, res.2.1)

/-- The sort key of cta_task: (count times total_scores, total_ranks),
compared lexicographically. -/
def cta_key (a : String × CtaAgg) : ℚ ×ₗ ℕ :=
  toLex ((a.2.count : ℚ) * a.2.total_scores, a.2.total_ranks)

/-- le a b says a's cta_task key is at most b's. -/
def cta_key_le (a b : String × CtaAgg) : Bool :=
  keyLe cta_key a b

/-- Reformatting of one aggregated type into a CTA annotation entry. -/
def mk_cta_entry (first num : Nat) (ta : String × CtaAgg) : CTAEntry :=
  { id := ta.1, score := ta.2.total_scores / ((num - first : Nat) : ℚ),
    coverage := (ta.2.count : ℚ) / ((num - first : Nat) : ℚ) }

/-- cta_task's pure core: the annotation for the column (none when no candidate type
was found) and the updated cached_cta_candidates. -/
def cta_core (store : KBStore) (first num : Nat) (cea_annot : List (Cell × List CEAEntry))
    (cached0 : List (String × HierTypes)) (col : Nat) (only_one : Bool) :
    Option (List CTAEntry) × List (String × HierTypes) :=
  let r := cta_candidate_types store first num cea_annot cached0 col
  match sortDesc cta_key_le r.2 with
  | [] => (none, r.1)
  | thr :: rest =>
      let sorted := thr :: rest
      if only_one then
        let main := sorted.filter
          (fun ta => decide ((ta.2.count : ℚ) * ta.2.total_scores =
                             (thr.2.count : ℚ) * thr.2.total_scores))
        let entries := main.map (mk_cta_entry first num)
        let supertypes := main.flatMap
          (fun ta => (get_supertypes_of_type store ta.1).map Prod.fst)
        let final := sorted.foldl
          (fun es ta =>
            if supertypes.contains ta.1 && !((es.map CTAEntry.id).contains ta.1) then
              es ++ [mk_cta_entry first num ta]
            else es)
          entries
        (some final, r.1)
      else
        (some ((sorted.filter (fun ta => decide (thr.2.count ≤ ta.2.count))).map
                 (mk_cta_entry first num)), r.1)

/-! ## cpa_task (annotation_models.py lines 1033-1131)

Python iterates the common rows as a set of ints; the embedding iterates them in
ascending order, which leaves every aggregated count/total/min value unchanged. -/

def bnat (b : Bool) : Nat := if b then 1 else 0

/-- The sort key of cpa_task: (count times total_scores, count, semantic_proximity,
single-predicate-before-path, forward-before-backward), compared lexicographically
(Python compares the booleans with False < True). -/
def cpa_key (a : String × CpaAgg) : ℚ ×ₗ (ℕ ×ₗ (ℚ ×ₗ (ℕ ×ₗ ℕ))) :=
  toLex ((a.2.count : ℚ) * a.2.total_scores,
    toLex (a.2.count,
      toLex (a.2.semantic_proximity,
        toLex (bnat (!str_has a.1 "::"), bnat (!str_has a.1 "(-)")))))

/-- le a b says a's cpa_task key is at most b's. -/
def cpa_key_le (a b : String × CpaAgg) : Bool :=
  keyLe cpa_key a b

/-- cpa_task's pure core: the annotation for the ordered column pair, none when the
pair is skipped or no relation candidate was found. -/
def cpa_core (table : List (List String)) (entity_cols literal_cols : List Nat)
    (unrelated : List Column_Pair) (first num : Nat)
    (cea_annot : List (Cell × List CEAEntry))
    (cached_cpa : List ((String × String) × List Relation)) (head tail : Nat)
    (only_one : Bool) : Option (List CPAEntry) :=
  if (⟨head, tail⟩ : Column_Pair) ∈ unrelated ∨ (tail ∈ literal_cols ∧ tail < head) then
    none
  else
    let cpa_candidates := (List.range' first (num - first)).foldl
      (fun agg row =>
        let heado := alGet cea_annot (⟨row, head⟩ : Cell)
        let tailo := if tail ∈ entity_cols then alGet cea_annot (⟨row, tail⟩ : Cell)
                     else some [({ id := py_cell table row tail, score := 0 } : CEAEntry)]
        match heado, tailo with
        | some hs, some ts =>
            let rowrel := hs.foldl
              (fun rr h =>
                ts.foldl
                  (fun rr2 t =>
                    (alGetD cached_cpa (h.id, t.id) []).foldl
                      (fun rr3 rel =>
                        match alGet rr3 rel.id with
                        | some old =>
                            alPut rr3 rel.id
                              ⟨min old.semantic_proximity rel.semantic_proximity,
                               max old.score (rel.semantic_proximity * max h.score t.score)⟩
                        | none =>
                            alPut rr3 rel.id
                              ⟨rel.semantic_proximity,
                               rel.semantic_proximity * max h.score t.score⟩)
                      rr2)
                  rr)
              ([] : List (String × RowRel))
            rowrel.foldl
              (fun a2 pr =>
                match alGet a2 pr.1 with
                | none => alPut a2 pr.1 ⟨1, pr.2.score, pr.2.semantic_proximity⟩
                | some a =>
                    alPut a2 pr.1
                      ⟨a.count + 1, a.total_scores + pr.2.score,
                       min a.semantic_proximity pr.2.semantic_proximity⟩)
              agg
        | _, _ => agg)
      ([] : List (String × CpaAgg))
    match sortDesc cpa_key_le cpa_candidates with
    | [] => none
    | thr :: rest =>
        let sorted := thr :: rest
        let denom := ((num - first : Nat) : ℚ)
        let entries :=
          if only_one then
            sorted.filter
              (fun ta => decide ((thr.2.count : ℚ) * thr.2.total_scores ≤
                                 (ta.2.count : ℚ) * ta.2.total_scores))
          else sorted.filter (fun ta => decide (thr.2.count ≤ ta.2.count))
        some (entries.map
          (fun ta => ({ id := ta.1, score := ta.2.total_scores / denom,
                        semantic_proximity := ta.2.semantic_proximity,
                        coverage := (ta.2.count : ℚ) / denom } : CPAEntry)))

/-! ## Engine state and task wrappers (Baseline_Model)

The mutable attributes of Baseline_Model that the three annotation tasks read or write
become one record; each task is its pure core plus the record update the source
performs (cea_task writes cea_annot and the type_graph cache, cta_task writes cta_annot
and the cached_cta_candidates cache, cpa_task writes cpa_annot). -/

@[ext]
structure ModelState where
  store : KBStore
  table : List (List String)
  num_rows : Nat
  first_data_row : Nat
  entity_cols : List Nat
  literal_cols : List Nat
  soft_scoring : Bool
  lookup : List (Cell × List String)
  entity_scores : List (Candidate_Entity × ℚ)
  entity_sim_scores : List (Candidate_Entity × ℚ)
  entity_context_scores : List (Candidate_Entity × List (Nat × ContextRec))
  unrelated_col_pairs : List Column_Pair
  cached_cpa_candidates : List ((String × String) × List Relation)
  cached_cta_candidates : List (String × HierTypes)
  type_graph : List (String × List String)
  contextless_cells : List (Cell × ℚ)
  potential_candidates : List (Candidate_Entity × List PotCand)
  cea_annot : List (Cell × List CEAEntry)
  cta_annot : List (Column × List CTAEntry)
  cpa_annot : List (Column_Pair × List CPAEntry)

def cea_task (s : ModelState) (col_index row_index : Nat) (only_one : Bool) : ModelState :=
  let r := cea_core s.store s.lookup s.entity_scores s.cta_annot s.soft_scoring
             s.contextless_cells s.potential_candidates s.cached_cta_candidates
             s.type_graph col_index row_index only_one
  { s with
    type_graph := r.2,
    cea_annot :=
      match r.1 with
      | some l => alPut s.cea_annot ⟨row_index, col_index⟩ l
      | none => s.cea_annot }

def cta_task (s : ModelState) (col_index : Nat) (only_one : Bool) : ModelState :=
  let r := cta_core s.store s.first_data_row s.num_rows s.cea_annot
             s.cached_cta_candidates col_index only_one
  { s with
    cached_cta_candidates := r.2,
    cta_annot :=
      match r.1 with
      | some l => alPut s.cta_annot ⟨col_index⟩ l
      | none => s.cta_annot }

def cpa_task (s : ModelState) (head_col_index tail_col_index : Nat) (only_one : Bool) :
    ModelState :=
  let r := cpa_core s.table s.entity_cols s.literal_cols s.unrelated_col_pairs
             s.first_data_row s.num_rows s.cea_annot s.cached_cpa_candidates
             head_col_index tail_col_index only_one
  { s with
    cpa_annot :=
      match r with
      | some l => alPut s.cpa_annot ⟨head_col_index, tail_col_index⟩ l
      | none => s.cpa_annot }

/-- The (col, row) cells visited by a CEA sweep over entity columns and data rows. -/
def sweep_cells (s : ModelState) : List (Nat × Nat) :=
  s.entity_cols.flatMap
    (fun c => (List.range' s.first_data_row (s.num_rows - s.first_data_row)).map
                (fun r => (c, r)))

/-- The ordered (head, tail) pairs of the CPA sweep: entity-entity pairs with
head before tail, then entity-literal pairs. -/
def ordered_pairs : List Nat → List (Nat × Nat)
  | [] => []
  | x :: xs => xs.map (fun y => (x, y)) ++ ordered_pairs xs

def sweep_pairs (s : ModelState) : List (Nat × Nat) :=
  ordered_pairs s.entity_cols ++
    s.entity_cols.flatMap (fun h => s.literal_cols.map (fun t => (h, t)))

/-- Pass 3 of table_annotation (lines 76-92): clear and re-run CEA with only_one=true
over every entity cell, then clear and re-run CTA with only_one=true over every entity
column, then clear and re-run CPA with only_one=false over every column pair. -/
def pass3 (s : ModelState) : ModelState :=
  let s1 := (sweep_cells s).foldl (fun st cr => cea_task st cr.1 cr.2 true)
              { s with cea_annot := [] }
  let s2 := s.entity_cols.foldl (fun st c => cta_task st c true)
              { s1 with cta_annot := [] }
  (sweep_pairs s).foldl (fun st ht => cpa_task st ht.1 ht.2 false)
    { s2 with cpa_annot := [] }

/-- Claim C10 (confirmed): cea_task, cta_task and cpa_task never write the
pre-disambiguation score maps entity_scores, entity_sim_scores and
entity_context_scores; the CTA/CPA adjustment of cea_task lives on local candidate
copies (the write-back of the combined score is commented out in the source). -/
theorem claim_C10_tasks_preserve_scores (s : ModelState)
    (col row head tail : Nat) (o1 o2 o3 : Bool) :
    (cea_task s col row o1).entity_scores = s.entity_scores ∧
    (cea_task s col row o1).entity_sim_scores = s.entity_sim_scores ∧
    (cea_task s col row o1).entity_context_scores = s.entity_context_scores ∧
    (cta_task s col o2).entity_scores = s.entity_scores ∧
    (cta_task s col o2).entity_sim_scores = s.entity_sim_scores ∧
    (cta_task s col o2).entity_context_scores = s.entity_context_scores ∧
    (cpa_task s head tail o3).entity_scores = s.entity_scores ∧
    (cpa_task s head tail o3).entity_sim_scores = s.entity_sim_scores ∧
    (cpa_task s head tail o3).entity_context_scores = s.entity_context_scores :=
  ⟨rfl, rfl, rfl, rfl, rfl, rfl, rfl, rfl, rfl⟩

theorem keyLe_total {α K : Type} [LinearOrder K] (key : α → K) (a b : α) :
    keyLe key a b || keyLe key b a := by
  unfold keyLe
  rcases le_total (key a) (key b) with h | h <;> simp [h]

theorem keyLe_trans {α K : Type} [LinearOrder K] (key : α → K) (a b c : α) :
    keyLe key a b → keyLe key b c → keyLe key a c := by
  unfold keyLe
  intro h1 h2
  simp only [decide_eq_true_eq] at h1 h2 ⊢
  exact le_trans h1 h2

theorem cea_key_le_score (potential : List (Candidate_Entity × List PotCand))
    (row col : Nat) (a b : CEAEntry) (h : cea_key_le potential row col a b) :
    a.score ≤ b.score := by
  unfold cea_key_le keyLe cea_key at h
  simp only [decide_eq_true_eq] at h
  rcases (Prod.Lex.le_iff _ _).mp h with h1 | ⟨h1, _⟩
  · exact le_of_lt h1
  · exact le_of_eq h1

/-- Claim C4 (confirmed): in cea_task with CTA disambiguation applied, every
candidate's final score is (score + cta_coeff times cta_bonus) / (1 + cta_coeff)
(score being the candidate's current, possibly contextless-boosted, score and
cta_bonus its CTA disambiguation score); the candidates are sorted stably by
(score, count of CPA memberships) descending; with only_one=true exactly the
candidates tying the top score are returned, otherwise the full sorted list. -/
theorem claim_C4_cea_disambiguation (store : KBStore) (lookup : List (Cell × List String))
    (entity_scores : List (Candidate_Entity × ℚ)) (cta_annot : List (Column × List CTAEntry))
    (soft_scoring : Bool) (contextless : List (Cell × ℚ))
    (potential : List (Candidate_Entity × List PotCand))
    (cached_cta : List (String × HierTypes)) (tg : List (String × List String))
    (col row : Nat) (only_one : Bool) (cand_ids : List String)
    (cea_candidates combined sorted : List CEAEntry) (acc : CtaDisambAcc)
    (cc : ℚ × List CEAEntry)
    (h_lookup : alGet lookup (⟨row, col⟩ : Cell) = some cand_ids)
    (h_cands : cea_candidates = cand_ids.filterMap
      (fun id => (alGet entity_scores ⟨row, col, id⟩).map
                   (fun sc => ({ id := id, score := sc } : CEAEntry))))
    (h_ne : cea_candidates ≠ [])
    (h_acc : acc = cta_disamb_fold store cached_cta cea_candidates cta_annot col tg)
    (h_applied : acc.applied = true)
    (h_cc : cc = cea_coeff_cands soft_scoring contextless potential row col
                   acc.applied acc.weights cea_candidates)
    (h_combined : combined = cc.2.map
      (fun c => ({ id := c.id,
                   score := (c.score + cc.1 * alGetD acc.ds c.id 0) / (1 + cc.1) } : CEAEntry)))
    (h_sorted : sorted = sortDesc (cea_key_le potential row col) combined) :
    (cea_core store lookup entity_scores cta_annot soft_scoring contextless potential
        cached_cta tg col row only_one).1 =
      some (if only_one then
              match sorted with
              | [] => []
              | h :: _ => sorted.filter (fun c => decide (c.score = h.score))
            else sorted) ∧
    sorted.Perm combined ∧
    sorted.Pairwise (DescOrd (cea_key_le potential row col)) ∧
    (∀ h t, sorted = h :: t → ∀ c ∈ sorted, c.score ≤ h.score) := by
  have h_ne' : cea_candidates.isEmpty = false := by
    cases hc : cea_candidates with
    | nil => exact absurd hc h_ne
    | cons x xs => rfl
  refine ⟨?_, ?_, ?_, ?_⟩
  · unfold cea_core
    rw [h_lookup]
    rw [h_applied] at h_cc
    simp only [← h_cands, h_ne', Bool.false_eq_true, if_false, ← h_acc, h_applied,
      if_true, ← h_cc, ← h_combined, ← h_sorted]
    cases only_one <;> cases sorted <;> rfl
  · rw [h_sorted]
    exact sortDesc_perm _ combined
  · rw [h_sorted]
    exact sortDesc_pairwise _ (keyLe_total _) (keyLe_trans _) combined
  · intro h t hht c hc
    have hp : sorted.Pairwise (DescOrd (cea_key_le potential row col)) := by
      rw [h_sorted]
      exact sortDesc_pairwise _ (keyLe_total _) (keyLe_trans _) combined
    rw [hht] at hp hc
    rcases List.mem_cons.mp hc with rfl | hct
    · exact le_refl _
    · exact cea_key_le_score potential row col c h (pairwise_head_max _ h t hp c hct)

/-! Concrete single-candidate instance for the C4 witness. -/

def c4_lookup : List (Cell × List String) := [(⟨0, 0⟩, ["e1"])]

def c4_scores : List (Candidate_Entity × ℚ) := [(⟨0, 0, "e1"⟩, 1/2)]

def c4_cta : List (Column × List CTAEntry) := [(⟨0⟩, [⟨"T", 1, 1⟩])]

def c4_cached : List (String × HierTypes) := [("e1", ⟨[("T", "NORMAL")], [], []⟩)]

def c4_cands : List CEAEntry := [⟨"e1", 1/2⟩]

def c4_acc : CtaDisambAcc := cta_disamb_fold ([] : KBStore) c4_cached c4_cands c4_cta 0 []

def c4_cc : ℚ × List CEAEntry :=
  cea_coeff_cands true [] [] 0 0 c4_acc.applied c4_acc.weights c4_cands

def c4_combined : List CEAEntry :=
  c4_cc.2.map
    (fun c => ({ id := c.id,
                 score := (c.score + c4_cc.1 * alGetD c4_acc.ds c.id 0) / (1 + c4_cc.1) } :
               CEAEntry))

def c4_sorted : List CEAEntry := sortDesc (cea_key_le [] 0 0) c4_combined

theorem claim_C4_cea_disambiguation_witness :
    (cea_core [] c4_lookup c4_scores c4_cta true [] [] c4_cached [] 0 0 true).1 =
      some (if true then
              match c4_sorted with
              | [] => []
              | h :: _ => c4_sorted.filter (fun c => decide (c.score = h.score))
            else c4_sorted) ∧
    c4_sorted.Perm c4_combined ∧
    c4_sorted.Pairwise (DescOrd (cea_key_le [] 0 0)) ∧
    (∀ h t, c4_sorted = h :: t → ∀ c ∈ c4_sorted, c.score ≤ h.score) :=
  claim_C4_cea_disambiguation [] c4_lookup c4_scores c4_cta true [] [] c4_cached []
    0 0 true ["e1"] c4_cands c4_combined c4_sorted c4_acc c4_cc
    rfl rfl (by simp [c4_cands]) rfl rfl rfl rfl rfl

/-! ## Claim C7: per-type counts in cta_task -/

/-- The keys of an association list are pairwise distinct (Python dict invariant). -/
def KeysNodup {K V : Type} (l : List (K × V)) : Prop := (l.map Prod.fst).Nodup

theorem mem_alPut {K V : Type} [DecidableEq K] (l : List (K × V)) (k : K) (v : V)
    (ta : K × V) (h : ta ∈ alPut l k v) : ta = (k, v) ∨ ta ∈ l := by
  induction l with
  | nil => simpa [alPut] using h
  | cons hd tl ih =>
      by_cases hh : hd.1 = k
      · simp only [alPut, if_pos hh, List.mem_cons] at h
        rcases h with h | h
        · exact Or.inl h
        · exact Or.inr (List.mem_cons_of_mem hd h)
      · simp only [alPut, if_neg hh, List.mem_cons] at h
        rcases h with h | h
        · exact Or.inr (h ▸ List.mem_cons_self hd tl)
        · rcases ih h with h' | h'
          · exact Or.inl h'
          · exact Or.inr (List.mem_cons_of_mem hd h')

theorem alGet_mem {K V : Type} [DecidableEq K] (l : List (K × V)) (k : K) (v : V)
    (h : alGet l k = some v) : (k, v) ∈ l := by
  induction l with
  | nil => simp [alGet] at h
  | cons hd tl ih =>
      by_cases hh : hd.1 = k
      · simp only [alGet, if_pos hh, Option.some.injEq] at h
        subst h
        subst hh
        exact List.mem_cons_self hd tl
      · simp only [alGet, if_neg hh] at h
        exact List.mem_cons_of_mem hd (ih h)

theorem keys_alPut {K V : Type} [DecidableEq K] (l : List (K × V)) (k : K) (v : V) :
    (alPut l k v).map Prod.fst = if alHas l k then l.map Prod.fst
                                 else l.map Prod.fst ++ [k] := by
  induction l with
  | nil => simp [alPut, alHas, alGet]
  | cons hd tl ih =>
      by_cases hh : hd.1 = k
      · simp [alPut, alHas, alGet, hh]
      · simp only [alPut, if_neg hh, List.map_cons, ih, alHas, alGet, hh, if_false]
        by_cases ht : (alGet tl k).isSome
        · simp [alHas, ht]
        · simp [alHas, ht]

theorem alGet_isSome_of_mem {K V : Type} [DecidableEq K] (l : List (K × V)) (k : K)
    (v : V) (h : (k, v) ∈ l) : (alGet l k).isSome := by
  induction l with
  | nil => simp at h
  | cons hd tl ih =>
      rcases List.mem_cons.mp h with rfl | h'
      · simp [alGet]
      · by_cases hh : hd.1 = k
        · simp [alGet, hh]
        · simpa [alGet, hh] using ih h'

theorem keysNodup_alPut {K V : Type} [DecidableEq K] (l : List (K × V)) (k : K) (v : V)
    (h : KeysNodup l) : KeysNodup (alPut l k v) := by
  unfold KeysNodup
  rw [keys_alPut]
  by_cases hk : alHas l k
  · simpa [hk] using h
  · have hk' : alHas l k = false := by simpa using hk
    simp only [hk', Bool.false_eq_true, if_false]
    rw [List.nodup_append]
    refine ⟨h, List.nodup_singleton k, ?_⟩
    intro a ha hb
    simp only [List.mem_singleton] at hb
    subst hb
    have : (alGet l a).isSome := by
      rcases List.mem_map.mp ha with ⟨⟨k', v'⟩, hmem, hfst⟩
      subst hfst
      exact alGet_isSome_of_mem l k' v' hmem
    exact hk this

theorem keysNodup_level1 (cs : ℚ) (level : List (String × String))
    (rt : List (String × TypeScore)) (last : Option String) (h : KeysNodup rt) :
    KeysNodup (cta_level1_fold cs level rt last).1 := by
  induction level generalizing rt last with
  | nil => exact h
  | cons hd tl ih =>
      simp only [cta_level1_fold, List.foldl_cons]
      cases hget : alGet rt hd.1 with
      | some old =>
          exact ih (alPut rt hd.1 _) (some hd.1)
            (by simpa [cta_level1_fold, hget] using keysNodup_alPut rt hd.1 _ h)
      | none =>
          exact ih (alPut rt hd.1 _) (some hd.1)
            (by simpa [cta_level1_fold, hget] using keysNodup_alPut rt hd.1 _ h)

theorem keysNodup_level2 (cs : ℚ) (level : List (String × String))
    (rt : List (String × TypeScore)) (lastT1 : Option String) (h : KeysNodup rt) :
    KeysNodup (cta_level2_fold cs level rt lastT1) := by
  induction level generalizing rt with
  | nil => exact h
  | cons hd tl ih =>
      simp only [cta_level2_fold, List.foldl_cons]
      cases hget : alGet rt hd.1 with
      | some old => exact ih _ (by simpa [hget] using keysNodup_alPut rt hd.1 _ h)
      | none => exact ih _ (by simpa [hget] using keysNodup_alPut rt hd.1 _ h)

theorem keysNodup_level3 (cs : ℚ) (level : List (String × String))
    (rt : List (String × TypeScore)) (h : KeysNodup rt) :
    KeysNodup (cta_level3_fold cs level rt) := by
  induction level generalizing rt with
  | nil => exact h
  | cons hd tl ih =>
      simp only [cta_level3_fold, List.foldl_cons]
      cases hget : alGet rt hd.1 with
      | some old => exact ih _ (by simpa [hget] using keysNodup_alPut rt hd.1 _ h)
      | none => exact ih _ (by simpa [hget] using keysNodup_alPut rt hd.1 _ h)

theorem keysNodup_row_fold (store : KBStore) (ceas : List CEAEntry)
    (cached : List (String × HierTypes)) (last : Option String) :
    KeysNodup (cta_row_fold store ceas cached last).2.1 := by
  suffices h : ∀ (ceas : List CEAEntry) (cached : List (String × HierTypes))
      (rt : List (String × TypeScore)) (last : Option String), KeysNodup rt →
      KeysNodup (ceas.foldl
        (fun acc cea =>
          let cached := acc.1
          let rt := acc.2.1
          let last := acc.2.2
          let ch :=
            match alGet cached cea.id with
            | some h => (cached, h)
            | none =>
                let h := hier_types_of store cea.id
                (alPut cached cea.id h, h)
          let r1 := cta_level1_fold cea.score ch.2.level_1 rt last
          let r2 := cta_level2_fold cea.score ch.2.level_2 r1.1 r1.2
          let r3 := cta_level3_fold cea.score ch.2.level_3 r2
          (ch.1, r3, r1.2))
        (cached, rt, last)).2.1 by
    exact h ceas cached [] last (by simp [KeysNodup])
  intro ceas
  induction ceas with
  | nil => intro cached rt last h; exact h
  | cons cea rest ih =>
      intro cached rt last h
      simp only [List.foldl_cons]
      exact ih _ _ _
        (keysNodup_level3 _ _ _ (keysNodup_level2 _ _ _ _ (keysNodup_level1 _ _ _ _ h)))

/-- One row's aggregation into candidate_types raises each type's count by at most 1:
given distinct row-type keys, counts bounded by k grow to at most k + 1. -/
theorem row_agg_bound (rt : List (String × TypeScore)) (ct : List (String × CtaAgg))
    (k : Nat) (hnd : KeysNodup rt)
    (hct : ∀ ta ∈ ct, ta.2.count ≤ k + 1 ∧ (ta.1 ∈ rt.map Prod.fst → ta.2.count ≤ k)) :
    ∀ ta ∈ (rt.foldl
        (fun ct ttsc =>
          match alGet ct ttsc.1 with
          | some a =>
              alPut ct ttsc.1
                ⟨a.count + 1, a.total_scores + ttsc.2.score, a.total_ranks + ttsc.2.rank⟩
          | none => alPut ct ttsc.1 ⟨1, ttsc.2.score, ttsc.2.rank⟩)
        ct), ta.2.count ≤ k + 1 := by
  induction rt generalizing ct with
  | nil =>
      intro ta hta
      exact (hct ta hta).1
  | cons hd tl ih =>
      simp only [KeysNodup, List.map_cons, List.nodup_cons] at hnd
      simp only [List.foldl_cons]
      intro ta hta
      refine ih _ ?_ ?_ ta hta
      · exact hnd.2
      · intro tb htb
        cases hget : alGet ct hd.1 with
        | some a =>
            rw [hget] at htb
            rcases mem_alPut _ _ _ _ htb with rfl | htb'
            · refine ⟨?_, ?_⟩
              · have := (hct (hd.1, a) (alGet_mem ct hd.1 a hget)).2
                  (by simp [List.mem_cons])
                simpa using Nat.succ_le_succ this
              · intro hmem
                exact absurd hmem hnd.1
            · refine ⟨(hct tb htb').1, ?_⟩
              intro hmem
              exact (hct tb htb').2 (List.mem_cons_of_mem hd.1 hmem)
        | none =>
            rw [hget] at htb
            rcases mem_alPut _ _ _ _ htb with rfl | htb'
            · refine ⟨by simp, ?_⟩
              intro hmem
              exact absurd hmem hnd.1
            · refine ⟨(hct tb htb').1, ?_⟩
              intro hmem
              exact (hct tb htb').2 (List.mem_cons_of_mem hd.1 hmem)

/-- A one-row, two-type instance for the C7 counterexample: the single CEA candidate
carries two level-1 types, so both types get count 1 in the single data row. -/
def c7_cea : List (Cell × List CEAEntry) := [(⟨0, 0⟩, [⟨"e1", 1⟩])]

def c7_cached : List (String × HierTypes) :=
  [("e1", ⟨[("T1", "NORMAL"), ("T2", "NORMAL")], [], []⟩)]

/-- Claim C7 counterexample: the claim bounds the SUM of the distinct types' counts by
the number of data rows; with one data row whose candidate has two direct types, both
types are counted once, so the sum is 2 > 1. -/
theorem claim_C7_counterexample :
    ((cta_candidate_types [] 0 1 c7_cea c7_cached 0).2.map (fun ta => ta.2.count)).sum = 2 ∧
    (1 : Nat) - 0 = 1 ∧
    ¬ ((cta_candidate_types [] 0 1 c7_cea c7_cached 0).2.map
        (fun ta => ta.2.count)).sum ≤ 1 - 0 := by
  refine ⟨rfl, rfl, ?_⟩
  intro h
  have : (2 : Nat) ≤ 1 := by
    have he : ((cta_candidate_types [] 0 1 c7_cea c7_cached 0).2.map
        (fun ta => ta.2.count)).sum = 2 := rfl
    rw [he] at h
    exact h
  omega

/-- Claim C7 as amended: for every column processed by cta_task, each distinct
candidate type's aggregated count is at most the number of data rows (each row
contributes at most 1 to each type), hence every CTA coverage is at most 1. -/
theorem claim_C7_type_count_bound (store : KBStore) (first num : Nat)
    (cea_annot : List (Cell × List CEAEntry)) (cached0 : List (String × HierTypes))
    (col : Nat) :
    ∀ ta ∈ (cta_candidate_types store first num cea_annot cached0 col).2,
      ta.2.count ≤ num - first := by
  suffices h : ∀ (rs : List Nat) (cached : List (String × HierTypes))
      (ct : List (String × CtaAgg)) (last : Option String) (k : Nat),
      (∀ ta ∈ ct, ta.2.count ≤ k) →
      ∀ ta ∈ (rs.foldl
          (fun acc row =>
            match alGet cea_annot (⟨row, col⟩ : Cell) with
            | none => acc
            | some ceas =>
                let r := cta_row_fold store ceas acc.1 acc.2.2
                let ct2 := r.2.1.foldl
                  (fun ct ttsc =>
                    match alGet ct ttsc.1 with
                    | some a =>
                        alPut ct ttsc.1
                          ⟨a.count + 1, a.total_scores + ttsc.2.score,
                           a.total_ranks + ttsc.2.rank⟩
                    | none => alPut ct ttsc.1 ⟨1, ttsc.2.score, ttsc.2.rank⟩)
                  acc.2.1
                (r.1, ct2, r.2.2))
          (cached, ct, last)).2.1, ta.2.count ≤ k + rs.length by
    intro ta hta
    have h2 := h (List.range' first (num - first)) cached0 [] none 0 (by simp) ta hta
    simpa using h2
  intro rs
  induction rs with
  | nil =>
      intro cached ct last k hct ta hta
      simpa using hct ta hta
  | cons row rs ih =>
      intro cached ct last k hct ta hta
      simp only [List.foldl_cons] at hta
      have hlen : k + (row :: rs).length = (k + 1) + rs.length := by
        simp [List.length_cons]
        omega
      rw [hlen]
      cases hrow : alGet cea_annot (⟨row, col⟩ : Cell) with
      | none =>
          rw [hrow] at hta
          exact ih cached ct last (k + 1)
            (fun tb htb => Nat.le_succ_of_le (hct tb htb)) ta hta
      | some ceas =>
          rw [hrow] at hta
          refine ih _ _ _ (k + 1) ?_ ta hta
          intro tb htb
          refine row_agg_bound _ _ k (keysNodup_row_fold store ceas cached last) ?_ tb htb
          intro tc htc
          exact ⟨Nat.le_succ_of_le (hct tc htc), fun _ => hct tc htc⟩

/-- The aggregation record of type T1 in the C7 instance, kept in the unevaluated
term form the fold produces. -/
def c7_t1_agg : CtaAgg :=
  ⟨1, 1 * 1, map_rank (py_first "NORMAL")⟩

/-- Closed instance discharging the hypotheses of the amended C7 theorem. -/
theorem claim_C7_type_count_bound_witness :
    (("T1", c7_t1_agg) ∈ (cta_candidate_types [] 0 1 c7_cea c7_cached 0).2) ∧
    (1 : Nat) ≤ 1 - 0 := by
  have hmem : ("T1", c7_t1_agg) ∈ (cta_candidate_types [] 0 1 c7_cea c7_cached 0).2 := by
    have hform : (cta_candidate_types [] 0 1 c7_cea c7_cached 0).2 =
        [("T1", c7_t1_agg), ("T2", ⟨1, 1 * 1, map_rank (py_first "NORMAL")⟩)] := rfl
    rw [hform]
    exact List.mem_cons_self _ _
  exact ⟨hmem, claim_C7_type_count_bound [] 0 1 c7_cea c7_cached 0 _ hmem⟩

/-! ## Scoring kernel (Baseline_Model.entity_scoring_task, _context_scoring,
update_context_weight)

Class constants: semantic_context_weight = 1.0 and literal_context_weight = 0.3, set in
__init__ and never reassigned.  The logistic factor
1/(1+exp(-(sim^2.5/0.5-1)/0.2)) of the final score is transcendental and enters the
embedding as the parameter sig (a value in [0,1]). -/

def semantic_context_weight : ℚ := 1

def literal_context_weight : ℚ := 0.3

/-- The column pair attached to a (candidate, context column) pair
(entity_scoring_task lines 725-728 and update_context_weight lines 363-366). -/
def make_col_pair (candidate_col col_idx : Nat) (entity_cols : List Nat) : Column_Pair :=
  if col_idx < candidate_col ∧ col_idx ∈ entity_cols then ⟨col_idx, candidate_col⟩
  else ⟨candidate_col, col_idx⟩

/-- A context column participates in the aggregation when its pair is not unrelated
and has a CPA annotation (line 729). -/
def context_counted (candidate_col : Nat) (entity_cols : List Nat)
    (unrelated : List Column_Pair) (cpa_annot : List (Column_Pair × List CPAEntry))
    (c : Nat × ContextRec) : Bool :=
  let cp := make_col_pair candidate_col c.1 entity_cols
  decide (cp ∉ unrelated) && alHas cpa_annot cp

/-- The CPA scale factor of a context sub-score: 1.0 at the first pass, else the
coverage times semantic proximity of the first CPA of the pair whose id backs the
context, 0 when none does (lines 730-740). -/
def context_scale_factor (first_step : Bool) (cpas : List CPAEntry) (ctx : ContextRec) :
    ℚ :=
  if first_step then 1
  else
    match cpas.find? (fun a => ctx.context.contains a.id) with
    | some a => a.coverage * a.semantic_proximity
    | none => 0

/-- scaled_score = max(0.1, scale_factor * score) (line 741). -/
def scaled_context_score (first_step : Bool) (cpa_annot : List (Column_Pair × List CPAEntry))
    (cp : Column_Pair) (ctx : ContextRec) : ℚ :=
  max 0.1 (context_scale_factor first_step (alGetD cpa_annot cp []) ctx * ctx.score)

/-- The base weight added to the aggregation denominator for a context column
(lines 768-771; a column in neither list adds nothing). -/
def context_base_weight (entity_cols literal_cols : List Nat) (col : Nat) : ℚ :=
  if col ∈ entity_cols then semantic_context_weight
  else if col ∈ literal_cols then literal_context_weight
  else 0

/-- One step of the per-candidate context aggregation: accumulate
(context_score, context_weight, max_context_weight). -/
def context_agg_step (first_step : Bool) (candidate_col : Nat)
    (entity_cols literal_cols : List Nat) (unrelated : List Column_Pair)
    (cpa_annot : List (Column_Pair × List CPAEntry)) (acc : ℚ × ℚ × ℚ)
    (c : Nat × ContextRec) : ℚ × ℚ × ℚ :=
  if context_counted candidate_col entity_cols unrelated cpa_annot c then
    let cp := make_col_pair candidate_col c.1 entity_cols
    (acc.1 + c.2.weight * scaled_context_score first_step cpa_annot cp c.2,
     acc.2.1 + context_base_weight entity_cols literal_cols c.1,
     max acc.2.2 c.2.weight)
  else acc

/-- The aggregated (context_score, max_context_weight) of one candidate
(lines 720-777): 0.01 when the candidate has no context record or when no context
was counted. -/
def aggregated_context_score (first_step : Bool) (candidate_col : Nat)
    (entity_cols literal_cols : List Nat) (unrelated : List Column_Pair)
    (cpa_annot : List (Column_Pair × List CPAEntry)) (contexts : List (Nat × ContextRec)) :
    ℚ × ℚ :=
  if contexts.isEmpty then (0.01, 0)
  else
    let t := contexts.foldl
      (context_agg_step first_step candidate_col entity_cols literal_cols unrelated
        cpa_annot) (0, 0, 0)
    (if t.2.1 ≠ 0 then t.1 / t.2.1 else 0.01, t.2.2)

/-- The final candidate score (lines 716-798): with more than one column and some
other column, context-backed sigmoid scoring when max_context_weight > 0.1, else the
0.1 * sim fallback; a single-column table scores by similarity alone. -/
def entity_final_score (num_columns : Nat) (entity_cols literal_cols : List Nat)
    (sim sig context_score max_context_weight : ℚ) : ℚ :=
  if 1 < num_columns ∧ (entity_cols ≠ [] ∨ literal_cols ≠ []) then
    if 0.1 < max_context_weight then context_score * sig else 0.1 * sim
  else sim

/-- The per-candidate body of entity_scoring_task. -/
def entity_scoring_candidate (first_step : Bool) (num_columns candidate_col : Nat)
    (entity_cols literal_cols : List Nat) (unrelated : List Column_Pair)
    (cpa_annot : List (Column_Pair × List CPAEntry)) (contexts : List (Nat × ContextRec))
    (sim sig : ℚ) : ℚ :=
  let a := aggregated_context_score first_step candidate_col entity_cols literal_cols
    unrelated cpa_annot contexts
  entity_final_score num_columns entity_cols literal_cols sim sig a.1 a.2

/-- The weighted mean claimed by C3: sum of weight*score over the candidate's context
records divided by the sum of the (current) weights, with the 0.01 floor on an empty
record list. -/
def claim_weighted_context (contexts : List (Nat × ContextRec)) : ℚ :=
  if contexts.isEmpty then 0.01
  else (contexts.map (fun c => c.2.weight * c.2.score)).sum /
       (contexts.map (fun c => c.2.weight)).sum

/-! Context sub-score updates of _context_scoring. -/

/-- The partner-similarity threshold (lines 538-541): 0.7 for mentions longer than 5
characters, else 0.9. -/
def semantic_threshold (mention : String) : ℚ := if 5 < mention.length then 0.7 else 0.9

/-- The semantic sub-score of one side (lines 542-545). -/
def semantic_sub_score (best sim_partner : ℚ) (mention : String) : ℚ :=
  if semantic_threshold mention ≤ sim_partner then max 0.1 (best * sim_partner) else 0.1

/-- The semantic context update (lines 546, 556): max of current and the sub-score. -/
def semantic_context_update (current best sim_partner : ℚ) (mention : String) : ℚ :=
  max current (semantic_sub_score best sim_partner mention)

/-- The date context update (lines 618-619): a non-zero matching score (1.0 or 0.8)
overwrites the current score. -/
def date_context_update (current matching : ℚ) : ℚ :=
  if matching ≠ 0 then matching else current

/-- The textual context update (lines 625-628): sim above 0.9 raises the score. -/
def textual_context_update (current sim : ℚ) : ℚ :=
  if 0.9 < sim then max current sim else current

/-- The quantity context update (lines 663-665): sim above the threshold (0.95, or
0.75 for currency) raises the score. -/
def quantity_context_update (current sim threshold : ℚ) : ℚ :=
  if threshold < sim then max current sim else current

/-! Weight updates of update_context_weight (lines 360-379). -/

/-- distance_falloff = (1 + 4*min(d1, d2))^-1 over the two column distances. -/
def distance_falloff (d1 d2 : Nat) : ℚ := (1 + 4 * ((min d1 d2 : Nat) : ℚ))⁻¹

/-- The updated weight of a semantic context: floor 0.05. -/
def update_weight_semantic (cov tau df : ℚ) : ℚ :=
  max 0.05 (semantic_context_weight * cov * tau * df)

/-- The updated weight of a literal context: floor 0.01. -/
def update_weight_literal (cov tau df : ℚ) : ℚ :=
  max 0.01 (literal_context_weight * cov * tau * df)

/-! Score adjustments of cea_task used for the invariant. -/

/-- The contextless-cell boost (line 998): capped at 1. -/
def cea_boost (score cpa_coeff : ℚ) : ℚ := min 1 (score * (1 + cpa_coeff))

/-- The CTA combination of cea_task (lines 1006-1011). -/
def cea_combine (score coeff bonus : ℚ) : ℚ := (score + coeff * bonus) / (1 + coeff)

theorem context_fold_sums (first_step : Bool) (candidate_col : Nat)
    (entity_cols literal_cols : List Nat) (unrelated : List Column_Pair)
    (cpa_annot : List (Column_Pair × List CPAEntry)) :
    ∀ (contexts : List (Nat × ContextRec)) (acc : ℚ × ℚ × ℚ),
      contexts.foldl
          (context_agg_step first_step candidate_col entity_cols literal_cols unrelated
            cpa_annot) acc =
        (acc.1 + ((contexts.filter
              (context_counted candidate_col entity_cols unrelated cpa_annot)).map
            (fun c => c.2.weight * scaled_context_score first_step cpa_annot
                        (make_col_pair candidate_col c.1 entity_cols) c.2)).sum,
         acc.2.1 + ((contexts.filter
              (context_counted candidate_col entity_cols unrelated cpa_annot)).map
            (fun c => context_base_weight entity_cols literal_cols c.1)).sum,
         (contexts.filter
              (context_counted candidate_col entity_cols unrelated cpa_annot)).foldl
           (fun m c => max m c.2.weight) acc.2.2) := by
  intro contexts
  induction contexts with
  | nil => intro acc; simp
  | cons c cs ih =>
      intro acc
      simp only [List.foldl_cons, List.filter_cons]
      cases h : context_counted candidate_col entity_cols unrelated cpa_annot c with
      | false =>
          simp only [Bool.false_eq_true, if_false]
          have hstep : context_agg_step first_step candidate_col entity_cols literal_cols
              unrelated cpa_annot acc c = acc := by
            unfold context_agg_step
            rw [h]
            rfl
          rw [hstep, ih]
      | true =>
          simp only [if_true]
          have hstep : context_agg_step first_step candidate_col entity_cols literal_cols
              unrelated cpa_annot acc c =
              (acc.1 + c.2.weight * scaled_context_score first_step cpa_annot
                         (make_col_pair candidate_col c.1 entity_cols) c.2,
               acc.2.1 + context_base_weight entity_cols literal_cols c.1,
               max acc.2.2 c.2.weight) := by
            unfold context_agg_step
            rw [h]
            rfl
          rw [hstep, ih]
          simp [add_assoc]

/-- Closed form of the context aggregation fold, shared by the C3 theorem and its
counterexample. -/
theorem aggregated_context_score_closed_form (first_step : Bool) (candidate_col : Nat)
    (entity_cols literal_cols : List Nat) (unrelated : List Column_Pair)
    (cpa_annot : List (Column_Pair × List CPAEntry)) (contexts : List (Nat × ContextRec)) :
    (aggregated_context_score first_step candidate_col entity_cols literal_cols unrelated
        cpa_annot contexts).1 =
      (if ((contexts.filter
              (context_counted candidate_col entity_cols unrelated cpa_annot)).map
            (fun c => context_base_weight entity_cols literal_cols c.1)).sum ≠ 0 then
        ((contexts.filter
              (context_counted candidate_col entity_cols unrelated cpa_annot)).map
            (fun c => c.2.weight * scaled_context_score first_step cpa_annot
                        (make_col_pair candidate_col c.1 entity_cols) c.2)).sum /
          ((contexts.filter
              (context_counted candidate_col entity_cols unrelated cpa_annot)).map
            (fun c => context_base_weight entity_cols literal_cols c.1)).sum
      else 0.01) := by
  unfold aggregated_context_score
  cases hc : contexts with
  | nil => simp
  | cons c cs =>
      simp only [List.isEmpty_cons, Bool.false_eq_true, if_false]
      rw [context_fold_sums first_step candidate_col entity_cols literal_cols unrelated
        cpa_annot (c :: cs) (0, 0, 0)]
      simp

/-- Claim C3 as amended: the aggregated context score is the sum of
current-weight-times-scaled-sub-score over exactly the contexts whose column pair has a
CPA annotation and is not marked unrelated, divided by the sum of the BASE context
weights (1.0 semantic, 0.3 literal) over those same contexts; it is the 0.01 floor when
no context is counted (in particular when the candidate has none at all). -/
theorem claim_C3_context_aggregation (first_step : Bool) (candidate_col : Nat)
    (entity_cols literal_cols : List Nat) (unrelated : List Column_Pair)
    (cpa_annot : List (Column_Pair × List CPAEntry)) (contexts : List (Nat × ContextRec)) :
    (aggregated_context_score first_step candidate_col entity_cols literal_cols unrelated
        cpa_annot contexts).1 =
      (if ((contexts.filter
              (context_counted candidate_col entity_cols unrelated cpa_annot)).map
            (fun c => context_base_weight entity_cols literal_cols c.1)).sum ≠ 0 then
        ((contexts.filter
              (context_counted candidate_col entity_cols unrelated cpa_annot)).map
            (fun c => c.2.weight * scaled_context_score first_step cpa_annot
                        (make_col_pair candidate_col c.1 entity_cols) c.2)).sum /
          ((contexts.filter
              (context_counted candidate_col entity_cols unrelated cpa_annot)).map
            (fun c => context_base_weight entity_cols literal_cols c.1)).sum
      else 0.01) :=
  aggregated_context_score_closed_form first_step candidate_col entity_cols literal_cols
    unrelated cpa_annot contexts

/-- The concrete context record for the C3 counterexample: one semantic context with
updated weight 1/20, sub-score 1/2, backed by the pair's CPA P1. -/
def c3_cpa : List (Column_Pair × List CPAEntry) := [(⟨0, 1⟩, [⟨"P1", 1, 1, 1⟩])]

def c3_ctx : List (Nat × ContextRec) := [(0, ⟨1/20, 1/2, ["P1"]⟩)]

/-- Claim C3 counterexample: after the weight update the aggregation divides by the
BASE weight sum (1.0 here), not by the current weight sum (1/20), so the aggregated
score is (1/20)*(1/2)/1 = 1/40 while the claimed weighted mean is
((1/20)*(1/2))/(1/20) = 1/2. -/
theorem claim_C3_counterexample :
    (aggregated_context_score false 1 [0, 1] [] [] c3_cpa c3_ctx).1 = 1 / 40 ∧
    claim_weighted_context c3_ctx = 1 / 2 ∧
    (1 / 40 : ℚ) ≠ 1 / 2 := by
  refine ⟨?_, ?_, by norm_num⟩
  · rw [aggregated_context_score_closed_form]
    norm_num [context_counted, make_col_pair, context_scale_factor, scaled_context_score,
      context_base_weight, alHas, alGet, alGetD, c3_cpa, c3_ctx, List.find?,
      semantic_context_weight]
  · norm_num [claim_weighted_context, c3_ctx]

/-- _literal_similarity_scoring when the lookup API supplied scores: every candidate's
similarity becomes its lookup score. -/
def literal_similarity_scoring (sim_scores lookup_scores : List (Candidate_Entity × ℚ)) :
    List (Candidate_Entity × ℚ) :=
  sim_scores.map (fun cv => (cv.1, alGetD lookup_scores cv.1 0))

theorem context_base_weight_nonneg (entity_cols literal_cols : List Nat) (col : Nat) :
    0 ≤ context_base_weight entity_cols literal_cols col := by
  unfold context_base_weight semantic_context_weight literal_context_weight
  split
  · norm_num
  · split <;> norm_num

theorem context_scale_factor_bounds (first_step : Bool)
    (cpa_annot : List (Column_Pair × List CPAEntry)) (cp : Column_Pair) (ctx : ContextRec)
    (h_cpa : ∀ pe ∈ cpa_annot, ∀ e ∈ pe.2,
      0 ≤ e.coverage ∧ e.coverage ≤ 1 ∧
      0 ≤ e.semantic_proximity ∧ e.semantic_proximity ≤ 1) :
    0 ≤ context_scale_factor first_step (alGetD cpa_annot cp []) ctx ∧
    context_scale_factor first_step (alGetD cpa_annot cp []) ctx ≤ 1 := by
  unfold context_scale_factor
  split
  · norm_num
  · cases hget : alGet cpa_annot cp with
    | none =>
        simp [alGetD, hget, List.find?]
    | some l =>
        have hmem := alGet_mem cpa_annot cp l hget
        simp only [alGetD, hget, Option.getD]
        cases hfind : l.find? (fun a => ctx.context.contains a.id) with
        | none => norm_num
        | some a =>
            have ha : a ∈ l := List.mem_of_find?_eq_some hfind
            have hb := h_cpa (cp, l) hmem a ha
            constructor
            · exact mul_nonneg hb.1 hb.2.2.1
            · exact mul_le_one hb.2.1 hb.2.2.1 hb.2.2.2

theorem scaled_context_score_bounds (first_step : Bool)
    (cpa_annot : List (Column_Pair × List CPAEntry)) (cp : Column_Pair) (ctx : ContextRec)
    (h_score : 0 ≤ ctx.score ∧ ctx.score ≤ 1)
    (h_cpa : ∀ pe ∈ cpa_annot, ∀ e ∈ pe.2,
      0 ≤ e.coverage ∧ e.coverage ≤ 1 ∧
      0 ≤ e.semantic_proximity ∧ e.semantic_proximity ≤ 1) :
    0 ≤ scaled_context_score first_step cpa_annot cp ctx ∧
    scaled_context_score first_step cpa_annot cp ctx ≤ 1 := by
  have hs := context_scale_factor_bounds first_step cpa_annot cp ctx h_cpa
  unfold scaled_context_score
  constructor
  · have : (0.1 : ℚ) ≤ max 0.1 (context_scale_factor first_step (alGetD cpa_annot cp []) ctx * ctx.score) :=
      le_max_left _ _
    linarith
  · refine max_le (by norm_num) ?_
    exact mul_le_one hs.2 h_score.1 h_score.2

theorem aggregated_context_score_bounds (first_step : Bool) (candidate_col : Nat)
    (entity_cols literal_cols : List Nat) (unrelated : List Column_Pair)
    (cpa_annot : List (Column_Pair × List CPAEntry)) (contexts : List (Nat × ContextRec))
    (h_ctx : ∀ c ∈ contexts, 0 ≤ c.2.weight ∧
      c.2.weight ≤ context_base_weight entity_cols literal_cols c.1 ∧
      0.1 ≤ c.2.score ∧ c.2.score ≤ 1)
    (h_cpa : ∀ pe ∈ cpa_annot, ∀ e ∈ pe.2,
      0 ≤ e.coverage ∧ e.coverage ≤ 1 ∧
      0 ≤ e.semantic_proximity ∧ e.semantic_proximity ≤ 1) :
    0 ≤ (aggregated_context_score first_step candidate_col entity_cols literal_cols
          unrelated cpa_annot contexts).1 ∧
    (aggregated_context_score first_step candidate_col entity_cols literal_cols
        unrelated cpa_annot contexts).1 ≤ 1 := by
  unfold aggregated_context_score
  cases hc : contexts with
  | nil => norm_num
  | cons c0 cs =>
      rw [← hc]
      have hne : contexts.isEmpty = false := by rw [hc]; rfl
      simp only [hne, Bool.false_eq_true, if_false]
      rw [context_fold_sums first_step candidate_col entity_cols literal_cols unrelated
        cpa_annot contexts (0, 0, 0)]
      simp only [zero_add]
      set F := contexts.filter (context_counted candidate_col entity_cols unrelated cpa_annot)
        with hF
      have hsub : ∀ c ∈ F, c ∈ contexts := by
        intro c hcF
        exact List.mem_of_mem_filter hcF
      have hnum_nonneg : 0 ≤ (F.map
          (fun c => c.2.weight * scaled_context_score first_step cpa_annot
                      (make_col_pair candidate_col c.1 entity_cols) c.2)).sum := by
        refine List.sum_nonneg ?_
        intro x hx
        rcases List.mem_map.mp hx with ⟨c, hcF, rfl⟩
        have hc' := h_ctx c (hsub c hcF)
        exact mul_nonneg hc'.1
          (scaled_context_score_bounds first_step cpa_annot _ _
            ⟨by linarith [hc'.2.2.1], hc'.2.2.2⟩ h_cpa).1
      have hden_nonneg : 0 ≤ (F.map
          (fun c => context_base_weight entity_cols literal_cols c.1)).sum := by
        refine List.sum_nonneg ?_
        intro x hx
        rcases List.mem_map.mp hx with ⟨c, hcF, rfl⟩
        exact context_base_weight_nonneg entity_cols literal_cols c.1
      have hnum_le_den : (F.map
          (fun c => c.2.weight * scaled_context_score first_step cpa_annot
                      (make_col_pair candidate_col c.1 entity_cols) c.2)).sum ≤
          (F.map (fun c => context_base_weight entity_cols literal_cols c.1)).sum := by
        refine List.sum_le_sum ?_
        intro c hcF
        have hc' := h_ctx c (hsub c hcF)
        have hsc := scaled_context_score_bounds first_step cpa_annot
          (make_col_pair candidate_col c.1 entity_cols) c.2
          ⟨by linarith [hc'.2.2.1], hc'.2.2.2⟩ h_cpa
        calc c.2.weight * scaled_context_score first_step cpa_annot
              (make_col_pair candidate_col c.1 entity_cols) c.2
            ≤ context_base_weight entity_cols literal_cols c.1 * 1 :=
              mul_le_mul hc'.2.1 hsc.2 hsc.1
                (context_base_weight_nonneg entity_cols literal_cols c.1)
          _ = context_base_weight entity_cols literal_cols c.1 := mul_one _
      split
      · next hden_ne =>
          have hden_pos : 0 < (F.map
              (fun c => context_base_weight entity_cols literal_cols c.1)).sum :=
            lt_of_le_of_ne hden_nonneg (Ne.symm hden_ne)
          constructor
          · exact div_nonneg hnum_nonneg hden_nonneg
          · exact (div_le_one hden_pos).mpr hnum_le_den
      · norm_num

/-- Claim C6 (confirmed): assuming every similarity score supplied by the lookup
service lies in [0, 1], every candidate's literal-similarity score (a copy of the
lookup score) lies in [0, 1]; every per-column context sub-score update keeps the 0.1
floor; the final candidate score of entity_scoring_task lies in [0, 1]; and the
weight updates and cea_task adjustments preserve those ranges along the pipeline. -/
theorem claim_C6_score_invariants (first_step : Bool) (num_columns candidate_col : Nat)
    (entity_cols literal_cols : List Nat) (unrelated : List Column_Pair)
    (cpa_annot : List (Column_Pair × List CPAEntry)) (contexts : List (Nat × ContextRec))
    (sim_scores lookup_scores : List (Candidate_Entity × ℚ))
    (sim sig current best sim_partner matching threshold score coeff bonus cov tau : ℚ)
    (d1 d2 : Nat) (mention : String)
    (h_lkp : ∀ cv ∈ lookup_scores, 0 ≤ cv.2 ∧ cv.2 ≤ 1)
    (h_sim : 0 ≤ sim ∧ sim ≤ 1) (h_sig : 0 ≤ sig ∧ sig ≤ 1)
    (h_ctx : ∀ c ∈ contexts, 0 ≤ c.2.weight ∧
      c.2.weight ≤ context_base_weight entity_cols literal_cols c.1 ∧
      0.1 ≤ c.2.score ∧ c.2.score ≤ 1)
    (h_cpa : ∀ pe ∈ cpa_annot, ∀ e ∈ pe.2,
      0 ≤ e.coverage ∧ e.coverage ≤ 1 ∧
      0 ≤ e.semantic_proximity ∧ e.semantic_proximity ≤ 1) :
    (∀ cv ∈ literal_similarity_scoring sim_scores lookup_scores, 0 ≤ cv.2 ∧ cv.2 ≤ 1) ∧
    (0.1 ≤ semantic_context_update current best sim_partner mention) ∧
    (0.1 ≤ current → 0.1 ≤ textual_context_update current sim_partner) ∧
    (0.1 ≤ current → 0.1 ≤ quantity_context_update current sim_partner threshold) ∧
    (0.1 ≤ current → matching = 0 ∨ matching = 0.8 ∨ matching = 1 →
      0.1 ≤ date_context_update current matching) ∧
    (0 ≤ entity_scoring_candidate first_step num_columns candidate_col entity_cols
        literal_cols unrelated cpa_annot contexts sim sig ∧
      entity_scoring_candidate first_step num_columns candidate_col entity_cols
        literal_cols unrelated cpa_annot contexts sim sig ≤ 1) ∧
    (0 ≤ cov → cov ≤ 1 → 0 ≤ tau → tau ≤ 1 →
      0.05 ≤ update_weight_semantic cov tau (distance_falloff d1 d2) ∧
      update_weight_semantic cov tau (distance_falloff d1 d2) ≤ semantic_context_weight ∧
      0.01 ≤ update_weight_literal cov tau (distance_falloff d1 d2) ∧
      update_weight_literal cov tau (distance_falloff d1 d2) ≤ literal_context_weight) ∧
    (0 ≤ score → score ≤ 1 → 0 ≤ coeff → 0 ≤ bonus → bonus ≤ 1 →
      0 ≤ cea_boost score coeff ∧ cea_boost score coeff ≤ 1 ∧
      0 ≤ cea_combine score coeff bonus ∧ cea_combine score coeff bonus ≤ 1) := by
  have hdf : 0 < distance_falloff d1 d2 ∧ distance_falloff d1 d2 ≤ 1 := by
    unfold distance_falloff
    constructor
    · apply inv_pos.mpr
      positivity
    · rw [inv_le_one_iff₀]
      right
      have : (0 : ℚ) ≤ ((min d1 d2 : Nat) : ℚ) := by positivity
      linarith
  refine ⟨?_, ?_, ?_, ?_, ?_, ?_, ?_, ?_⟩
  · intro cv hcv
    rcases List.mem_map.mp hcv with ⟨c0, _, rfl⟩
    simp only [alGetD]
    cases hget : alGet lookup_scores c0.1 with
    | none => norm_num
    | some v =>
        simp only [Option.getD]
        exact h_lkp (c0.1, v) (alGet_mem lookup_scores c0.1 v hget)
  · unfold semantic_context_update semantic_sub_score
    rcases le_or_lt (semantic_threshold mention) sim_partner with h | h
    · rw [if_pos h]
      have : (0.1 : ℚ) ≤ max 0.1 (best * sim_partner) := le_max_left _ _
      have h2 : max 0.1 (best * sim_partner) ≤
          max current (max 0.1 (best * sim_partner)) := le_max_right _ _
      linarith
    · rw [if_neg (not_le.mpr h)]
      have : (0.1 : ℚ) ≤ max current 0.1 := le_max_right _ _
      linarith
  · intro h
    unfold textual_context_update
    split
    · have : current ≤ max current sim_partner := le_max_left _ _
      linarith
    · exact h
  · intro h
    unfold quantity_context_update
    split
    · have : current ≤ max current sim_partner := le_max_left _ _
      linarith
    · exact h
  · intro h hm
    unfold date_context_update
    split
    · rcases hm with rfl | rfl | rfl
      · simp at *
      · norm_num
      · norm_num
    · exact h
  · have hagg := aggregated_context_score_bounds first_step candidate_col entity_cols
      literal_cols unrelated cpa_annot contexts h_ctx h_cpa
    unfold entity_scoring_candidate entity_final_score
    split
    · dsimp only
      split
      · exact ⟨mul_nonneg hagg.1 h_sig.1, mul_le_one hagg.2 h_sig.1 h_sig.2⟩
      · constructor
        · have := h_sim.1
          nlinarith
        · have := h_sim.2
          nlinarith
    · exact h_sim
  · intro hc1 hc2 ht1 ht2
    have hprod1 : semantic_context_weight * cov * tau * distance_falloff d1 d2 ≤ 1 := by
      unfold semantic_context_weight
      have h1 : cov * tau ≤ 1 := mul_le_one hc2 ht1 ht2
      have h2 : cov * tau * distance_falloff d1 d2 ≤ 1 :=
        mul_le_one h1 (le_of_lt hdf.1) hdf.2
      nlinarith [hdf.1, hdf.2, mul_nonneg hc1 ht1]
    have hprod2 : literal_context_weight * cov * tau * distance_falloff d1 d2 ≤
        literal_context_weight := by
      unfold literal_context_weight
      have h1 : cov * tau ≤ 1 := mul_le_one hc2 ht1 ht2
      have h2 : cov * tau * distance_falloff d1 d2 ≤ 1 :=
        mul_le_one h1 (le_of_lt hdf.1) hdf.2
      nlinarith [mul_nonneg hc1 ht1, hdf.1]
    refine ⟨le_max_left _ _, ?_, le_max_left _ _, ?_⟩
    · unfold update_weight_semantic
      refine max_le (by unfold semantic_context_weight; norm_num) ?_
      unfold semantic_context_weight at hprod1 ⊢
      linarith
    · unfold update_weight_literal
      refine max_le (by unfold literal_context_weight; norm_num) ?_
      exact hprod2
  · intro hs1 hs2 hco hb1 hb2
    have hden : (0 : ℚ) < 1 + coeff := by linarith
    refine ⟨?_, ?_, ?_, ?_⟩
    · unfold cea_boost
      refine le_min (by norm_num) ?_
      have : (0 : ℚ) ≤ 1 + coeff := by linarith
      exact mul_nonneg hs1 this
    · exact min_le_left _ _
    · unfold cea_combine
      refine div_nonneg ?_ (le_of_lt hden)
      have : 0 ≤ coeff * bonus := mul_nonneg hco hb1
      linarith
    · unfold cea_combine
      rw [div_le_one hden]
      have : coeff * bonus ≤ coeff * 1 := mul_le_mul_of_nonneg_left hb2 hco
      linarith

def c6_cand : Candidate_Entity := ⟨0, 0, "e1"⟩

def c6_lkp : List (Candidate_Entity × ℚ) := [(c6_cand, 1)]

def c6_ctx : List (Nat × ContextRec) := [(0, ⟨1, 1/2, []⟩)]

/-- Closed instance discharging the hypotheses of the C6 invariant theorem. -/
theorem claim_C6_score_invariants_witness :
    (∀ cv ∈ literal_similarity_scoring c6_lkp c6_lkp, 0 ≤ cv.2 ∧ cv.2 ≤ 1) ∧
    ((0.1 : ℚ) ≤ semantic_context_update (1/2) (1/2) (1/2) "abc") ∧
    ((0.1 : ℚ) ≤ 1/2 → (0.1 : ℚ) ≤ textual_context_update (1/2) (1/2)) ∧
    ((0.1 : ℚ) ≤ 1/2 → (0.1 : ℚ) ≤ quantity_context_update (1/2) (1/2) 0.95) ∧
    ((0.1 : ℚ) ≤ 1/2 → (0.8 : ℚ) = 0 ∨ (0.8 : ℚ) = 0.8 ∨ (0.8 : ℚ) = 1 →
      (0.1 : ℚ) ≤ date_context_update (1/2) 0.8) ∧
    (0 ≤ entity_scoring_candidate true 2 1 [0] [] [] [] c6_ctx (1/2) (1/2) ∧
      entity_scoring_candidate true 2 1 [0] [] [] [] c6_ctx (1/2) (1/2) ≤ 1) ∧
    ((0 : ℚ) ≤ 1/2 → (1/2 : ℚ) ≤ 1 → (0 : ℚ) ≤ 1/2 → (1/2 : ℚ) ≤ 1 →
      0.05 ≤ update_weight_semantic (1/2) (1/2) (distance_falloff 0 1) ∧
      update_weight_semantic (1/2) (1/2) (distance_falloff 0 1) ≤ semantic_context_weight ∧
      0.01 ≤ update_weight_literal (1/2) (1/2) (distance_falloff 0 1) ∧
      update_weight_literal (1/2) (1/2) (distance_falloff 0 1) ≤ literal_context_weight) ∧
    ((0 : ℚ) ≤ 1/2 → (1/2 : ℚ) ≤ 1 → (0 : ℚ) ≤ 1/2 → (0 : ℚ) ≤ 1/2 → (1/2 : ℚ) ≤ 1 →
      0 ≤ cea_boost (1/2) (1/2) ∧ cea_boost (1/2) (1/2) ≤ 1 ∧
      0 ≤ cea_combine (1/2) (1/2) (1/2) ∧ cea_combine (1/2) (1/2) (1/2) ≤ 1) :=
  claim_C6_score_invariants true 2 1 [0] [] [] [] c6_ctx c6_lkp c6_lkp
    (1/2) (1/2) (1/2) (1/2) (1/2) 0.8 0.95 (1/2) (1/2) (1/2) (1/2) (1/2) 0 1 "abc"
    (by intro cv hcv
        rcases List.mem_singleton.mp hcv with rfl
        constructor <;> norm_num)
    (by constructor <;> norm_num)
    (by constructor <;> norm_num)
    (by intro c hc
        rcases List.mem_singleton.mp hc with rfl
        refine ⟨by norm_num, ?_, by norm_num, by norm_num⟩
        simp [context_base_weight, semantic_context_weight])
    (by simp)

/-! ## Claim C8: Pass 3 idempotence

Pass 3 re-reads, besides the inputs it just cleared, only cta_annot (in cea_task) and
the two caches type_graph and cached_cta_candidates.  The congruence below makes that
dependence exact: two states agreeing on everything but cea_annot and cpa_annot are
indistinguishable to pass3. -/

/-- Forget the cpa_annot field (the only field the CPA phase still distinguishes). -/
def eraseCpa (s : ModelState) : ModelState := { s with cpa_annot := [] }

/-- Forget both output fields pass3 clears before writing them. -/
def eraseCeaCpa (s : ModelState) : ModelState :=
  { s with cea_annot := [], cpa_annot := [] }

theorem cea_task_erase_congr (a b : ModelState) (col row : Nat) (o : Bool)
    (h : eraseCpa a = eraseCpa b) :
    eraseCpa (cea_task a col row o) = eraseCpa (cea_task b col row o) := by
  obtain ⟨a1, a2, a3, a4, a5, a6, a7, a8, a9, a10, a11, a12, a13, a14, a15, a16, a17,
    a18, a19, a20⟩ := a
  obtain ⟨b1, b2, b3, b4, b5, b6, b7, b8, b9, b10, b11, b12, b13, b14, b15, b16, b17,
    b18, b19, b20⟩ := b
  simp only [eraseCpa, ModelState.mk.injEq] at h
  obtain ⟨e1, e2, e3, e4, e5, e6, e7, e8, e9, e10, e11, e12, e13, e14, e15, e16, e17,
    e18, e19, -⟩ := h
  subst_vars
  rfl

theorem cta_task_erase_congr (a b : ModelState) (col : Nat) (o : Bool)
    (h : eraseCpa a = eraseCpa b) :
    eraseCpa (cta_task a col o) = eraseCpa (cta_task b col o) := by
  obtain ⟨a1, a2, a3, a4, a5, a6, a7, a8, a9, a10, a11, a12, a13, a14, a15, a16, a17,
    a18, a19, a20⟩ := a
  obtain ⟨b1, b2, b3, b4, b5, b6, b7, b8, b9, b10, b11, b12, b13, b14, b15, b16, b17,
    b18, b19, b20⟩ := b
  simp only [eraseCpa, ModelState.mk.injEq] at h
  obtain ⟨e1, e2, e3, e4, e5, e6, e7, e8, e9, e10, e11, e12, e13, e14, e15, e16, e17,
    e18, e19, -⟩ := h
  subst_vars
  rfl

theorem fold_cea_erase_congr (cells : List (Nat × Nat)) :
    ∀ (a b : ModelState), eraseCpa a = eraseCpa b →
      eraseCpa (cells.foldl (fun st cr => cea_task st cr.1 cr.2 true) a) =
      eraseCpa (cells.foldl (fun st cr => cea_task st cr.1 cr.2 true) b) := by
  induction cells with
  | nil => intro a b h; exact h
  | cons c cs ih =>
      intro a b h
      simp only [List.foldl_cons]
      exact ih _ _ (cea_task_erase_congr a b c.1 c.2 true h)

theorem fold_cta_erase_congr (cols : List Nat) :
    ∀ (a b : ModelState), eraseCpa a = eraseCpa b →
      eraseCpa (cols.foldl (fun st c => cta_task st c true) a) =
      eraseCpa (cols.foldl (fun st c => cta_task st c true) b) := by
  induction cols with
  | nil => intro a b h; exact h
  | cons c cs ih =>
      intro a b h
      simp only [List.foldl_cons]
      exact ih _ _ (cta_task_erase_congr a b c true h)

theorem fold_cea_erase_congr2 (cellsA cellsB : List (Nat × Nat)) (hc : cellsA = cellsB)
    (a b : ModelState) (h : eraseCpa a = eraseCpa b) :
    eraseCpa (cellsA.foldl (fun st cr => cea_task st cr.1 cr.2 true) a) =
    eraseCpa (cellsB.foldl (fun st cr => cea_task st cr.1 cr.2 true) b) := by
  subst hc
  exact fold_cea_erase_congr cellsA a b h

theorem fold_cta_erase_congr2 (colsA colsB : List Nat) (hc : colsA = colsB)
    (a b : ModelState) (h : eraseCpa a = eraseCpa b) :
    eraseCpa (colsA.foldl (fun st c => cta_task st c true) a) =
    eraseCpa (colsB.foldl (fun st c => cta_task st c true) b) := by
  subst hc
  exact fold_cta_erase_congr colsA a b h

/-- pass3 cannot tell apart two states that agree on everything but the cleared
cea_annot and cpa_annot outputs. -/
theorem pass3_congr (a b : ModelState) (h : eraseCeaCpa a = eraseCeaCpa b) :
    pass3 a = pass3 b := by
  have hec : a.entity_cols = b.entity_cols := by
    have := congrArg ModelState.entity_cols h
    simpa [eraseCeaCpa] using this
  have hlc : a.literal_cols = b.literal_cols := by
    have := congrArg ModelState.literal_cols h
    simpa [eraseCeaCpa] using this
  have hfd : a.first_data_row = b.first_data_row := by
    have := congrArg ModelState.first_data_row h
    simpa [eraseCeaCpa] using this
  have hnr : a.num_rows = b.num_rows := by
    have := congrArg ModelState.num_rows h
    simpa [eraseCeaCpa] using this
  have hcells : sweep_cells a = sweep_cells b := by
    unfold sweep_cells
    rw [hec, hfd, hnr]
  have hpairs : sweep_pairs a = sweep_pairs b := by
    unfold sweep_pairs
    rw [hec, hlc]
  have h0 : eraseCpa { a with cea_annot := [] } = eraseCpa { b with cea_annot := [] } :=
    h
  have h1 : eraseCpa ((sweep_cells a).foldl (fun st cr => cea_task st cr.1 cr.2 true)
        { a with cea_annot := [] }) =
      eraseCpa ((sweep_cells b).foldl (fun st cr => cea_task st cr.1 cr.2 true)
        { b with cea_annot := [] }) :=
    fold_cea_erase_congr2 (sweep_cells a) (sweep_cells b) hcells _ _ h0
  have h1' : eraseCpa
      { (sweep_cells a).foldl (fun st cr => cea_task st cr.1 cr.2 true)
          { a with cea_annot := [] } with cta_annot := [] } =
      eraseCpa
      { (sweep_cells b).foldl (fun st cr => cea_task st cr.1 cr.2 true)
          { b with cea_annot := [] } with cta_annot := [] } := by
    have := congrArg
      (fun y => eraseCpa { y with cta_annot := ([] : List (Column × List CTAEntry)) }) h1
    simpa [eraseCpa] using this
  have h2 : eraseCpa (a.entity_cols.foldl (fun st c => cta_task st c true)
        { (sweep_cells a).foldl (fun st cr => cea_task st cr.1 cr.2 true)
            { a with cea_annot := [] } with cta_annot := [] }) =
      eraseCpa (b.entity_cols.foldl (fun st c => cta_task st c true)
        { (sweep_cells b).foldl (fun st cr => cea_task st cr.1 cr.2 true)
            { b with cea_annot := [] } with cta_annot := [] }) :=
    fold_cta_erase_congr2 a.entity_cols b.entity_cols hec _ _ h1'
  calc pass3 a
      = (sweep_pairs a).foldl (fun st ht => cpa_task st ht.1 ht.2 false)
          (eraseCpa (a.entity_cols.foldl (fun st c => cta_task st c true)
            { (sweep_cells a).foldl (fun st cr => cea_task st cr.1 cr.2 true)
                { a with cea_annot := [] } with cta_annot := [] })) := rfl
    _ = (sweep_pairs b).foldl (fun st ht => cpa_task st ht.1 ht.2 false)
          (eraseCpa (a.entity_cols.foldl (fun st c => cta_task st c true)
            { (sweep_cells a).foldl (fun st cr => cea_task st cr.1 cr.2 true)
                { a with cea_annot := [] } with cta_annot := [] })) := by rw [hpairs]
    _ = (sweep_pairs b).foldl (fun st ht => cpa_task st ht.1 ht.2 false)
          (eraseCpa (b.entity_cols.foldl (fun st c => cta_task st c true)
            { (sweep_cells b).foldl (fun st cr => cea_task st cr.1 cr.2 true)
                { b with cea_annot := [] } with cta_annot := [] })) :=
        congrArg
          (fun st => (sweep_pairs b).foldl (fun st ht => cpa_task st ht.1 ht.2 false) st)
          h2
    _ = pass3 b := rfl

theorem foldl_invariant {α β γ : Type} (f : α → γ) (step : α → β → α)
    (hf : ∀ a b, f (step a b) = f a) : ∀ (l : List β) (a : α), f (l.foldl step a) = f a := by
  intro l
  induction l with
  | nil => intro a; rfl
  | cons x xs ih =>
      intro a
      rw [List.foldl_cons, ih, hf]

/-- Any state observation untouched by the three tasks and the three clears is
untouched by pass3. -/
theorem pass3_preserves {γ : Type} (f : ModelState → γ)
    (h1 : ∀ st (c r : Nat) (o : Bool), f (cea_task st c r o) = f st)
    (h2 : ∀ st (c : Nat) (o : Bool), f (cta_task st c o) = f st)
    (h3 : ∀ st (hd tl : Nat) (o : Bool), f (cpa_task st hd tl o) = f st)
    (h4 : ∀ st, f { st with cea_annot := [] } = f st)
    (h5 : ∀ st, f { st with cta_annot := [] } = f st)
    (h6 : ∀ st, f { st with cpa_annot := [] } = f st)
    (s : ModelState) : f (pass3 s) = f s := by
  have i1 := foldl_invariant f (fun st (cr : Nat × Nat) => cea_task st cr.1 cr.2 true)
    (fun a b => h1 a b.1 b.2 true)
  have i2 := foldl_invariant f (fun st (c : Nat) => cta_task st c true)
    (fun a b => h2 a b true)
  have i3 := foldl_invariant f (fun st (ht : Nat × Nat) => cpa_task st ht.1 ht.2 false)
    (fun a b => h3 a b.1 b.2 false)
  show f ((sweep_pairs s).foldl (fun st ht => cpa_task st ht.1 ht.2 false)
      { s.entity_cols.foldl (fun st c => cta_task st c true)
          { (sweep_cells s).foldl (fun st cr => cea_task st cr.1 cr.2 true)
              { s with cea_annot := [] } with cta_annot := [] } with cpa_annot := [] }) = f s
  rw [i3, h6, i2, h5, i1, h4]

/-- Claim C8 as amended: Pass 3 is idempotent from any state it leaves fixed on the
inputs it re-reads: if one execution returns the CTA annotations unchanged and leaves
the type_graph and hierarchical-type caches unchanged, a second execution reproduces
the whole state, in particular identical CEA, CTA and CPA outputs. -/
theorem claim_C8_pass3_conditional_idempotence (s : ModelState)
    (h_cta : (pass3 s).cta_annot = s.cta_annot)
    (h_tg : (pass3 s).type_graph = s.type_graph)
    (h_cached : (pass3 s).cached_cta_candidates = s.cached_cta_candidates) :
    pass3 (pass3 s) = pass3 s ∧
    (pass3 (pass3 s)).cea_annot = (pass3 s).cea_annot ∧
    (pass3 (pass3 s)).cta_annot = (pass3 s).cta_annot ∧
    (pass3 (pass3 s)).cpa_annot = (pass3 s).cpa_annot := by
  have hstore : (pass3 s).store = s.store := pass3_preserves ModelState.store
    (fun _ _ _ _ => rfl) (fun _ _ _ => rfl) (fun _ _ _ _ => rfl)
    (fun _ => rfl) (fun _ => rfl) (fun _ => rfl) s
  have htable : (pass3 s).table = s.table := pass3_preserves ModelState.table
    (fun _ _ _ _ => rfl) (fun _ _ _ => rfl) (fun _ _ _ _ => rfl)
    (fun _ => rfl) (fun _ => rfl) (fun _ => rfl) s
  have hnum : (pass3 s).num_rows = s.num_rows := pass3_preserves ModelState.num_rows
    (fun _ _ _ _ => rfl) (fun _ _ _ => rfl) (fun _ _ _ _ => rfl)
    (fun _ => rfl) (fun _ => rfl) (fun _ => rfl) s
  have hfirst : (pass3 s).first_data_row = s.first_data_row :=
    pass3_preserves ModelState.first_data_row
    (fun _ _ _ _ => rfl) (fun _ _ _ => rfl) (fun _ _ _ _ => rfl)
    (fun _ => rfl) (fun _ => rfl) (fun _ => rfl) s
  have hecols : (pass3 s).entity_cols = s.entity_cols :=
    pass3_preserves ModelState.entity_cols
    (fun _ _ _ _ => rfl) (fun _ _ _ => rfl) (fun _ _ _ _ => rfl)
    (fun _ => rfl) (fun _ => rfl) (fun _ => rfl) s
  have hlcols : (pass3 s).literal_cols = s.literal_cols :=
    pass3_preserves ModelState.literal_cols
    (fun _ _ _ _ => rfl) (fun _ _ _ => rfl) (fun _ _ _ _ => rfl)
    (fun _ => rfl) (fun _ => rfl) (fun _ => rfl) s
  have hsoft : (pass3 s).soft_scoring = s.soft_scoring :=
    pass3_preserves ModelState.soft_scoring
    (fun _ _ _ _ => rfl) (fun _ _ _ => rfl) (fun _ _ _ _ => rfl)
    (fun _ => rfl) (fun _ => rfl) (fun _ => rfl) s
  have hlookup : (pass3 s).lookup = s.lookup := pass3_preserves ModelState.lookup
    (fun _ _ _ _ => rfl) (fun _ _ _ => rfl) (fun _ _ _ _ => rfl)
    (fun _ => rfl) (fun _ => rfl) (fun _ => rfl) s
  have hscores : (pass3 s).entity_scores = s.entity_scores :=
    pass3_preserves ModelState.entity_scores
    (fun _ _ _ _ => rfl) (fun _ _ _ => rfl) (fun _ _ _ _ => rfl)
    (fun _ => rfl) (fun _ => rfl) (fun _ => rfl) s
  have hsim : (pass3 s).entity_sim_scores = s.entity_sim_scores :=
    pass3_preserves ModelState.entity_sim_scores
    (fun _ _ _ _ => rfl) (fun _ _ _ => rfl) (fun _ _ _ _ => rfl)
    (fun _ => rfl) (fun _ => rfl) (fun _ => rfl) s
  have hctxs : (pass3 s).entity_context_scores = s.entity_context_scores :=
    pass3_preserves ModelState.entity_context_scores
    (fun _ _ _ _ => rfl) (fun _ _ _ => rfl) (fun _ _ _ _ => rfl)
    (fun _ => rfl) (fun _ => rfl) (fun _ => rfl) s
  have hunrel : (pass3 s).unrelated_col_pairs = s.unrelated_col_pairs :=
    pass3_preserves ModelState.unrelated_col_pairs
    (fun _ _ _ _ => rfl) (fun _ _ _ => rfl) (fun _ _ _ _ => rfl)
    (fun _ => rfl) (fun _ => rfl) (fun _ => rfl) s
  have hccpa : (pass3 s).cached_cpa_candidates = s.cached_cpa_candidates :=
    pass3_preserves ModelState.cached_cpa_candidates
    (fun _ _ _ _ => rfl) (fun _ _ _ => rfl) (fun _ _ _ _ => rfl)
    (fun _ => rfl) (fun _ => rfl) (fun _ => rfl) s
  have hcl : (pass3 s).contextless_cells = s.contextless_cells :=
    pass3_preserves ModelState.contextless_cells
    (fun _ _ _ _ => rfl) (fun _ _ _ => rfl) (fun _ _ _ _ => rfl)
    (fun _ => rfl) (fun _ => rfl) (fun _ => rfl) s
  have hpot : (pass3 s).potential_candidates = s.potential_candidates :=
    pass3_preserves ModelState.potential_candidates
    (fun _ _ _ _ => rfl) (fun _ _ _ => rfl) (fun _ _ _ _ => rfl)
    (fun _ => rfl) (fun _ => rfl) (fun _ => rfl) s
  have hmain : pass3 (pass3 s) = pass3 s := by
    apply pass3_congr
    unfold eraseCeaCpa
    ext1 <;>
      first
      | exact hstore
      | exact htable
      | exact hnum
      | exact hfirst
      | exact hecols
      | exact hlcols
      | exact hsoft
      | exact hlookup
      | exact hscores
      | exact hsim
      | exact hctxs
      | exact hunrel
      | exact hccpa
      | exact h_cached
      | exact h_tg
      | exact hcl
      | exact hpot
      | exact h_cta
      | rfl
  exact ⟨hmain, congrArg ModelState.cea_annot hmain,
    congrArg ModelState.cta_annot hmain, congrArg ModelState.cpa_annot hmain⟩


/-! ### C8: concrete two-pass divergence and a fixed-point witness

`c8_s` is a one-cell table state as left by Pass 2: one entity column, one
candidate `e1` with entity score 1/2, one cached candidate type `A` and a
Pass-2 CTA annotation scoring `A` at 1.0.  Running Pass 3 once rescores the
cell at (1/2 + (1/2)*1)/(3/2) = 2/3 and the column at 2/3; running it again
rescores them at 5/9, so the CEA/CTA outputs of the two passes differ.
`c8_sfix` carries the fixed-point CTA score 1/2, at which the hypotheses of
the conditional theorem hold and Pass 3 is idempotent. -/

def c8_s : ModelState :=
  { store := [], table := [["x"]], num_rows := 1, first_data_row := 0,
    entity_cols := [0], literal_cols := [], soft_scoring := true,
    lookup := [(⟨0, 0⟩, ["e1"])],
    entity_scores := [(⟨0, 0, "e1"⟩, 1/2)],
    entity_sim_scores := [], entity_context_scores := [],
    unrelated_col_pairs := [], cached_cpa_candidates := [],
    cached_cta_candidates := [("e1", ⟨[("A", "NORMAL")], [], []⟩)],
    type_graph := [("A", [])], contextless_cells := [], potential_candidates := [],
    cea_annot := [], cta_annot := [(⟨0⟩, [⟨"A", 1, 1⟩])], cpa_annot := [] }

def c8_sA : ModelState := { c8_s with cea_annot := [(⟨0, 0⟩, [⟨"e1", (2 : ℚ)/3⟩])] }

def c8_s1 : ModelState :=
  { c8_s with cea_annot := [(⟨0, 0⟩, [⟨"e1", (2 : ℚ)/3⟩])],
              cta_annot := [(⟨0⟩, [⟨"A", (2 : ℚ)/3, 1⟩])] }

set_option maxHeartbeats 1000000 in
theorem c8_hcea : cea_task { c8_s with cea_annot := [] } 0 0 true = c8_sA := by
  norm_num [cea_task, cea_core, cta_disamb_fold, cta_disamb_step_cand, cea_coeff_cands,
    mean, pyMax, sortDesc, insertDesc, alGet, alPut, alHas, alGetD, c8_s, c8_sA,
    Option.some_ne_none, List.filterMap_cons, List.filterMap_nil, List.map_cons,
    List.map_nil, List.foldl_cons, List.foldl_nil, List.filter_cons, List.filter_nil,
    ModelState.mk.injEq]

set_option maxHeartbeats 1000000 in
theorem c8_hcta : cta_task { c8_sA with cta_annot := [] } 0 true = c8_s1 := by
  norm_num [cta_task, cta_core, cta_candidate_types, cta_row_fold, cta_level1_fold,
    cta_level2_fold, cta_level3_fold, mk_cta_entry, map_rank, py_first, sortDesc,
    insertDesc, get_supertypes_of_type, alGet, alPut, alHas, alGetD, List.range',
    c8_s, c8_sA, c8_s1, Option.some_ne_none, List.filterMap_cons, List.filterMap_nil,
    List.map_cons, List.map_nil, List.foldl_cons, List.foldl_nil, List.filter_cons,
    List.filter_nil, List.flatMap_cons, List.flatMap_nil, ModelState.mk.injEq]

theorem c8_pass_1 : pass3 c8_s = c8_s1 := by
  have hc : sweep_cells c8_s = [(0, 0)] := rfl
  have he : c8_s.entity_cols = [0] := rfl
  have hp : sweep_pairs c8_s = [] := rfl
  show (sweep_pairs c8_s).foldl (fun st ht => cpa_task st ht.1 ht.2 false)
      { c8_s.entity_cols.foldl (fun st c => cta_task st c true)
          { (sweep_cells c8_s).foldl (fun st cr => cea_task st cr.1 cr.2 true)
              { c8_s with cea_annot := [] } with cta_annot := [] } with cpa_annot := [] } =
    c8_s1
  rw [hc, he, hp]
  simp only [List.foldl_cons, List.foldl_nil]
  rw [c8_hcea, c8_hcta]
  rfl

def c8_sA2 : ModelState := { c8_s1 with cea_annot := [(⟨0, 0⟩, [⟨"e1", (5 : ℚ)/9⟩])] }

def c8_s2 : ModelState :=
  { c8_s with cea_annot := [(⟨0, 0⟩, [⟨"e1", (5 : ℚ)/9⟩])],
              cta_annot := [(⟨0⟩, [⟨"A", (5 : ℚ)/9, 1⟩])] }

set_option maxHeartbeats 1000000 in
theorem c8_hcea2 : cea_task { c8_s1 with cea_annot := [] } 0 0 true = c8_sA2 := by
  norm_num [cea_task, cea_core, cta_disamb_fold, cta_disamb_step_cand, cea_coeff_cands,
    mean, pyMax, sortDesc, insertDesc, alGet, alPut, alHas, alGetD, c8_s, c8_s1, c8_sA2,
    Option.some_ne_none, List.filterMap_cons, List.filterMap_nil, List.map_cons,
    List.map_nil, List.foldl_cons, List.foldl_nil, List.filter_cons, List.filter_nil,
    ModelState.mk.injEq]

set_option maxHeartbeats 1000000 in
theorem c8_hcta2 : cta_task { c8_sA2 with cta_annot := [] } 0 true = c8_s2 := by
  norm_num [cta_task, cta_core, cta_candidate_types, cta_row_fold, cta_level1_fold,
    cta_level2_fold, cta_level3_fold, mk_cta_entry, map_rank, py_first, sortDesc,
    insertDesc, get_supertypes_of_type, alGet, alPut, alHas, alGetD, List.range',
    c8_s, c8_s1, c8_sA2, c8_s2, Option.some_ne_none, List.filterMap_cons,
    List.filterMap_nil, List.map_cons, List.map_nil, List.foldl_cons, List.foldl_nil,
    List.filter_cons, List.filter_nil, List.flatMap_cons, List.flatMap_nil,
    ModelState.mk.injEq]

theorem c8_pass_2 : pass3 c8_s1 = c8_s2 := by
  have hc : sweep_cells c8_s1 = [(0, 0)] := rfl
  have he : c8_s1.entity_cols = [0] := rfl
  have hp : sweep_pairs c8_s1 = [] := rfl
  show (sweep_pairs c8_s1).foldl (fun st ht => cpa_task st ht.1 ht.2 false)
      { c8_s1.entity_cols.foldl (fun st c => cta_task st c true)
          { (sweep_cells c8_s1).foldl (fun st cr => cea_task st cr.1 cr.2 true)
              { c8_s1 with cea_annot := [] } with cta_annot := [] } with cpa_annot := [] } =
    c8_s2
  rw [hc, he, hp]
  simp only [List.foldl_cons, List.foldl_nil]
  rw [c8_hcea2, c8_hcta2]
  rfl

/-- C8 (counterexample): on the concrete Pass-2 state `c8_s`, the first Pass 3
annotates cell (0,0) with score 2/3 while the second Pass 3 re-annotates it
with score 5/9, so running Pass 3 twice does NOT reproduce the CEA and CTA
outputs of a single run; the claimed unconditional idempotence is false. -/
theorem claim_C8_counterexample :
    (pass3 c8_s).cea_annot = [(⟨0, 0⟩, [⟨"e1", (2 : ℚ)/3⟩])] ∧
    (pass3 (pass3 c8_s)).cea_annot = [(⟨0, 0⟩, [⟨"e1", (5 : ℚ)/9⟩])] ∧
    (pass3 (pass3 c8_s)).cea_annot ≠ (pass3 c8_s).cea_annot ∧
    (pass3 (pass3 c8_s)).cta_annot ≠ (pass3 c8_s).cta_annot := by
  rw [c8_pass_1, c8_pass_2]
  refine ⟨rfl, rfl, ?_, ?_⟩
  · intro h
    simp only [c8_s1, c8_s2, List.cons.injEq, Prod.mk.injEq, CEAEntry.mk.injEq] at h
    norm_num at h
  · intro h
    simp only [c8_s1, c8_s2, List.cons.injEq, Prod.mk.injEq, CTAEntry.mk.injEq] at h
    norm_num at h

def c8_sfix : ModelState := { c8_s with cta_annot := [(⟨0⟩, [⟨"A", (1 : ℚ)/2, 1⟩])] }

def c8_sfixA : ModelState := { c8_sfix with cea_annot := [(⟨0, 0⟩, [⟨"e1", (1 : ℚ)/2⟩])] }

set_option maxHeartbeats 1000000 in
theorem c8_hcea_fix : cea_task { c8_sfix with cea_annot := [] } 0 0 true = c8_sfixA := by
  norm_num [cea_task, cea_core, cta_disamb_fold, cta_disamb_step_cand, cea_coeff_cands,
    mean, pyMax, sortDesc, insertDesc, alGet, alPut, alHas, alGetD, c8_s, c8_sfix, c8_sfixA,
    Option.some_ne_none, List.filterMap_cons, List.filterMap_nil, List.map_cons,
    List.map_nil, List.foldl_cons, List.foldl_nil, List.filter_cons, List.filter_nil,
    ModelState.mk.injEq]

set_option maxHeartbeats 1000000 in
theorem c8_hcta_fix : cta_task { c8_sfixA with cta_annot := [] } 0 true = c8_sfixA := by
  norm_num [cta_task, cta_core, cta_candidate_types, cta_row_fold, cta_level1_fold,
    cta_level2_fold, cta_level3_fold, mk_cta_entry, map_rank, py_first, sortDesc,
    insertDesc, get_supertypes_of_type, alGet, alPut, alHas, alGetD, List.range',
    c8_s, c8_sfix, c8_sfixA, Option.some_ne_none, List.filterMap_cons,
    List.filterMap_nil, List.map_cons, List.map_nil, List.foldl_cons, List.foldl_nil,
    List.filter_cons, List.filter_nil, List.flatMap_cons, List.flatMap_nil,
    ModelState.mk.injEq]

theorem c8_pass_fix : pass3 c8_sfix = c8_sfixA := by
  have hc : sweep_cells c8_sfix = [(0, 0)] := rfl
  have he : c8_sfix.entity_cols = [0] := rfl
  have hp : sweep_pairs c8_sfix = [] := rfl
  show (sweep_pairs c8_sfix).foldl (fun st ht => cpa_task st ht.1 ht.2 false)
      { c8_sfix.entity_cols.foldl (fun st c => cta_task st c true)
          { (sweep_cells c8_sfix).foldl (fun st cr => cea_task st cr.1 cr.2 true)
              { c8_sfix with cea_annot := [] } with cta_annot := [] } with cpa_annot := [] } =
    c8_sfixA
  rw [hc, he, hp]
  simp only [List.foldl_cons, List.foldl_nil]
  rw [c8_hcea_fix, c8_hcta_fix]
  rfl

/-- C8 (witness): the state `c8_sfix` carries the fixed-point CTA score 1/2;
its first Pass 3 reproduces its CTA annotation, type graph and CTA cache, so
the conditional idempotence theorem applies and yields that the second Pass 3
changes nothing. -/
theorem claim_C8_pass3_conditional_idempotence_witness :
    (pass3 c8_sfix).cta_annot = c8_sfix.cta_annot ∧
    pass3 (pass3 c8_sfix) = pass3 c8_sfix ∧
    (pass3 (pass3 c8_sfix)).cea_annot = (pass3 c8_sfix).cea_annot := by
  have h_cta : (pass3 c8_sfix).cta_annot = c8_sfix.cta_annot := by rw [c8_pass_fix]; rfl
  have h_tg : (pass3 c8_sfix).type_graph = c8_sfix.type_graph := by rw [c8_pass_fix]; rfl
  have h_cached : (pass3 c8_sfix).cached_cta_candidates = c8_sfix.cached_cta_candidates := by
    rw [c8_pass_fix]; rfl
  have h := claim_C8_pass3_conditional_idempotence c8_sfix h_cta h_tg h_cached
  exact ⟨h_cta, h.1, h.2.1⟩


end TableAnnot
